import Mathlib

/-!
# api-forge: test definitions, run snapshots and the assertion engine

A shallow embedding of the parts of the repository that the specification
talks about.

* The Mongoose schema declarations of `src/server/models/Test.js`,
  `Endpoint.js` and `Project.js` are transcribed path by path (`TestSchema.*`,
  `EndpointSchema.*`, `ProjectSchema.*`), together with the validation Mongoose
  runs on a declared path (`PathSpec.acceptsString`, `PathSpec.acceptsPresence`).
* The handlers of `src/server/routes/projects.js` are functions from the stored
  projects and the request to the answer and the new stored projects; what a
  handler throws goes through its `catch`.
* The execution engine (`RequestBuilder`, `ResponseNormalizer`,
  `PathResolver`, `AssertionEvaluator`, `RunRecorder`) is mounted by
  `src/server/index.js` as `./routes/tests`, a file that is not part of the
  available sources.  Its definitions here follow the specification and say
  so in their doc comments.
-/

namespace ApiForge

/-! ## JSON values -/

/-- Modelled from the spec: the NormalizedValue of the engine (routes/tests is
not among the sources), the closed union string / number / bool / null /
array / object of spec section 9.  Numbers are rationals; objects are
association lists in document order. -/
inductive JsonValue where
  | null
  | bool (b : Bool)
  | num (n : ℚ)
  | str (s : String)
  | arr (items : List JsonValue)
  | obj (fields : List (String × JsonValue))

namespace JsonValue

/-- Modelled from the spec: member access on an object of the engine's
NormalizedValue (routes/tests is not among the sources); the first entry with
the key is the member. -/
def lookupField (k : String) : List (String × JsonValue) → Option JsonValue
  | [] => none
  | (k', v) :: rest => if k' = k then some v else lookupField k rest

mutual
/-- Modelled from the spec: the deep structural equality used by `equals` and
`contains` (routes/tests is not among the sources).  Values of different JSON
types are never equal, arrays are compared position by position, objects by
key set and the value under each key. -/
def deepEquals : JsonValue → JsonValue → Bool
  | .null, .null => true
  | .bool a, .bool b => a == b
  | .num a, .num b => a == b
  | .str a, .str b => a == b
  | .arr xs, .arr ys => deepEqualsList xs ys
  | .obj fs, .obj gs => fs.length == gs.length && deepEqualsFields fs gs
  | _, _ => false
/-- Modelled from the spec: order-sensitive comparison of two arrays for
`deepEquals` (routes/tests is not among the sources). -/
def deepEqualsList : List JsonValue → List JsonValue → Bool
  | [], [] => true
  | x :: xs, y :: ys => deepEquals x y && deepEqualsList xs ys
  | _, _ => false
/-- Modelled from the spec: every member of the left object is a member of
the right one with a deeply equal value, for `deepEquals` (routes/tests is not
among the sources). -/
def deepEqualsFields : List (String × JsonValue) → List (String × JsonValue) → Bool
  | [], _ => true
  | (k, v) :: rest, gs =>
      (match lookupField k gs with
       | some w => deepEquals v w
       | none => false) && deepEqualsFields rest gs
end

/-- Whether the value is a scalar (neither array nor object). -/
def isScalar : JsonValue → Bool
  | .arr _ => false
  | .obj _ => false
  | _ => true

end JsonValue

open JsonValue

/-! ## PathResolver -/

/-- Modelled from the spec: one segment of a path expression of the engine's
PathResolver (routes/tests is not among the sources): an object key or a
bracketed array index. -/
inductive PathSegment where
  | key (k : String)
  | index (i : Nat)
  deriving DecidableEq, Repr

/-- Modelled from the spec: the split of a path expression at every dot, for
the path grammar of PathResolver (routes/tests is not among the sources). -/
def splitDots : List Char → List (List Char)
  | [] => [[]]
  | c :: cs =>
      match splitDots cs with
      | [] => [[c]]
      | p :: ps => if c = '.' then [] :: p :: ps else (c :: p) :: ps

/-- Modelled from the spec: the decimal value of the digits of a bracketed
index, for the path grammar of PathResolver (routes/tests is not among the
sources). -/
def digitsValue (ds : List Char) : Nat :=
  ds.foldl (fun acc d => 10 * acc + (d.toNat - '0'.toNat)) 0

/-- Modelled from the spec: the bracket groups `[n][m]...` that may follow a
key, for the path grammar of PathResolver (routes/tests is not among the
sources); the fuel is the number of characters left. -/
def parseBrackets : Nat → List Char → Option (List PathSegment)
  | _, [] => some []
  | 0, _ :: _ => none
  | fuel + 1, c :: cs =>
      if c = '[' then
        let ds := cs.takeWhile Char.isDigit
        match cs.dropWhile Char.isDigit with
        | ']' :: rest =>
            if ds.isEmpty then none
            else (parseBrackets fuel rest).map (fun more => PathSegment.index (digitsValue ds) :: more)
        | _ => none
      else none

/-- Modelled from the spec: one dot-separated piece of a path expression, an
optional key followed by bracket groups, for PathResolver (routes/tests is
not among the sources); the piece may not be empty. -/
def parsePiece (piece : List Char) : Option (List PathSegment) :=
  let name := piece.takeWhile (fun c => c ≠ '[' ∧ c ≠ ']')
  let tail := piece.dropWhile (fun c => c ≠ '[' ∧ c ≠ ']')
  if piece.isEmpty then none
  else
    (parseBrackets tail.length tail).map
      (fun more => if name.isEmpty then more else PathSegment.key (String.mk name) :: more)

/-- Modelled from the spec: the segments of all pieces of a path expression in
order, for PathResolver (routes/tests is not among the sources). -/
def parsePieces : List (List Char) → Option (List PathSegment)
  | [] => some []
  | p :: ps =>
      match parsePiece p, parsePieces ps with
      | some a, some b => some (a ++ b)
      | _, _ => none

/-- Modelled from the spec: the path grammar of the engine's PathResolver
(routes/tests is not among the sources): dot-separated segments, each an
object key or a numeric index in brackets, as in `data.items[0].id`.  The
empty string is the empty path; a string outside the grammar has no parse. -/
def parsePath (p : String) : Option (List PathSegment) :=
  if p.data.isEmpty then some [] else parsePieces (splitDots p.data)

/-- Modelled from the spec: the result of PathResolver.resolve, a found flag
and the resolved value when there is one (routes/tests is not among the
sources). -/
structure ResolveResult where
  found : Bool
  value : Option JsonValue

/-- Modelled from the spec: satisfying one segment (routes/tests is not among
the sources).  A key needs an object having it, an index needs an array long
enough; anything else, a scalar included, cannot be satisfied. -/
def stepSegment (v : JsonValue) : PathSegment → Option JsonValue
  | .key k =>
      match v with
      | .obj fs => lookupField k fs
      | _ => none
  | .index i =>
      match v with
      | .arr xs => xs.get? i
      | _ => none

/-- Modelled from the spec: the segment-by-segment walk of PathResolver
(routes/tests is not among the sources); it stops with found = false at the
first segment that cannot be satisfied. -/
def walk (v : JsonValue) : List PathSegment → ResolveResult
  | [] => { found := true, value := some v }
  | s :: rest =>
      match stepSegment v s with
      | none => { found := false, value := none }
      | some child => walk child rest

/-- Modelled from the spec: PathResolver.resolve(value, pathExpression)
(routes/tests is not among the sources).  A string that is no path expression
resolves to found = false. -/
def resolve (v : JsonValue) (p : String) : ResolveResult :=
  match parsePath p with
  | none => { found := false, value := none }
  | some segs => walk v segs

/-! ## AssertionEvaluator -/

/-- The six operators of the `enum` of `assertions.operator` in
`src/server/models/Test.js`, in the order of the declaration. -/
inductive Operator where
  | equals
  | contains
  | exists
  | notExists
  | greaterThan
  | lessThan
  deriving DecidableEq, Repr

/-- Modelled from the spec: an assertion as the evaluator receives it
(routes/tests is not among the sources): path, operator and expected value;
the value is ignored by exists and notExists. -/
structure Assertion where
  path : String
  operator : Operator
  value : JsonValue

/-- Modelled from the spec: one perAssertion entry of
AssertionEvaluator.evaluate (routes/tests is not among the sources); the
reason is given for a failing entry. -/
structure AssertionResult where
  assertion : Assertion
  pass : Bool
  reason : Option String

/-- Modelled from the spec: whether the first character list starts the
second, for the substring test of `contains` (routes/tests is not among the
sources). -/
def startsWithChars : List Char → List Char → Bool
  | [], _ => true
  | _ :: _, [] => false
  | a :: as, b :: bs => a == b && startsWithChars as bs

/-- Modelled from the spec: whether the first character list occurs as a
contiguous run in the second, for the substring test of `contains`
(routes/tests is not among the sources). -/
def occursInChars (needle : List Char) : List Char → Bool
  | [] => startsWithChars needle []
  | b :: bs => startsWithChars needle (b :: bs) || occursInChars needle bs

/-- Modelled from the spec: the substring test of `contains` (routes/tests is
not among the sources): whether `t` occurs in `s`. -/
def isSubstring (t s : String) : Bool :=
  occursInChars t.data s.data

/-- Modelled from the spec: the verdict of `contains` on a resolved value
(routes/tests is not among the sources).  On a string the expected value has
to be a string and a substring, else the reason is "type mismatch"; on an
array some element has to deep-equal the expected value.  The spec gives no
rule for other resolved values; they fail with "type mismatch". -/
def containsVerdict (resolved expected : JsonValue) : Bool × Option String :=
  match resolved with
  | .str s =>
      match expected with
      | .str t => if isSubstring t s then (true, none) else (false, some "substring not found")
      | _ => (false, some "type mismatch")
  | .arr xs =>
      if xs.any (fun x => deepEquals x expected) then (true, none)
      else (false, some "no matching element")
  | _ => (false, some "type mismatch")

/-- Modelled from the spec: the verdict of greaterThan / lessThan on a
resolved value (routes/tests is not among the sources): both sides have to be
numbers, else the entry fails with the reason "type mismatch". -/
def compareVerdict (greater : Bool) (resolved expected : JsonValue) : Bool × Option String :=
  match resolved, expected with
  | .num a, .num b =>
      if (if greater then decide (b < a) else decide (a < b)) then (true, none)
      else (false, some "comparison does not hold")
  | _, _ => (false, some "type mismatch")

/-- Modelled from the spec: the verdict of one assertion from the outcome of
the path resolution (routes/tests is not among the sources), operator by
operator as in spec section 4.5. -/
def verdict (op : Operator) (r : ResolveResult) (expected : JsonValue) : Bool × Option String :=
  match op with
  | .exists => if r.found then (true, none) else (false, some "path not found")
  | .notExists => if r.found then (false, some "path exists") else (true, none)
  | .equals =>
      match r.value with
      | none => (false, some "path not found")
      | some x => if deepEquals x expected then (true, none) else (false, some "values differ")
  | .contains =>
      match r.value with
      | none => (false, some "path not found")
      | some x => containsVerdict x expected
  | .greaterThan =>
      match r.value with
      | none => (false, some "path not found")
      | some x => compareVerdict true x expected
  | .lessThan =>
      match r.value with
      | none => (false, some "path not found")
      | some x => compareVerdict false x expected

/-- Modelled from the spec: the evaluation of one assertion against the
normalized response (routes/tests is not among the sources), a function of
(normalized response, path, operator, value) only. -/
def evalAssertion (response : JsonValue) (a : Assertion) : AssertionResult :=
  let v := verdict a.operator (resolve response a.path) a.value
  { assertion := a, pass := v.1, reason := v.2 }

/-- Modelled from the spec: the outcome of AssertionEvaluator.evaluate
(routes/tests is not among the sources). -/
structure AssertionOutcome where
  overallPass : Bool
  perAssertion : List AssertionResult

/-- Modelled from the spec: AssertionEvaluator.evaluate(normalizedResponse,
assertions) (routes/tests is not among the sources): every assertion is
evaluated, in order, and overallPass is the conjunction of the entries. -/
def evaluate (response : JsonValue) (assertions : List Assertion) : AssertionOutcome :=
  let entries := assertions.map (evalAssertion response)
  { overallPass := entries.all (fun e => e.pass), perAssertion := entries }

/-- Modelled from the spec: the aggregate failure reason, taken from the
first failing entry (routes/tests is not among the sources). -/
def firstFailure (entries : List AssertionResult) : Option AssertionResult :=
  entries.find? (fun e => !e.pass)

/-! ## RequestBuilder -/

/-- A key/value entry of `requestHeaders` / `requestParams` in
`src/server/models/Test.js` and, without its description, of `headers` /
`queryParams` in `src/server/models/Endpoint.js`. -/
abbrev Entry := String × String

/-- The `enum` of `method` in `src/server/models/Endpoint.js`. -/
inductive HttpMethod where
  | GET | POST | PUT | DELETE | PATCH | OPTIONS | HEAD
  deriving DecidableEq, Repr

/-- Modelled from the spec: the EndpointDefinition the engine consumes
(routes/tests is not among the sources); the fields are those of
`src/server/models/Endpoint.js`. -/
structure EndpointDefinition where
  method : HttpMethod
  path : String
  headers : List Entry
  queryParams : List Entry
  requestBody : Option JsonValue

/-- Modelled from the spec: the TestDefinition the engine consumes
(routes/tests is not among the sources); the fields are those of
`src/server/models/Test.js`. -/
structure TestDefinition where
  name : String
  requestHeaders : List Entry
  requestParams : List Entry
  requestBody : Option JsonValue
  expectedStatus : Option Int
  expectedResponse : Option JsonValue
  assertions : List Assertion

/-- Modelled from the spec: the value a list of key/value entries gives a key,
that of the first entry with the key, for the merge of RequestBuilder
(routes/tests is not among the sources). -/
def lookupKey (k : String) : List Entry → Option String
  | [] => none
  | (k', v) :: rest => if k' = k then some v else lookupKey k rest

/-- Modelled from the spec: whether a list of key/value entries has an entry
with the key, for the merge of RequestBuilder (routes/tests is not among the
sources). -/
def hasKey (k : String) (entries : List Entry) : Bool :=
  entries.any (fun e => e.1 == k)

/-- Modelled from the spec: the merge by key of RequestBuilder (routes/tests
is not among the sources): the endpoint defaults whose key the test does not
use, followed by the test entries. -/
def mergeByKey (defaults overrides : List Entry) : List Entry :=
  defaults.filter (fun e => !hasKey e.1 overrides) ++ overrides

/-- Modelled from the spec: substitution of the `{param}` placeholders of a
path template from the entries whose key is the placeholder name
(routes/tests is not among the sources); an unmatched placeholder stays as
literal text. -/
def substitute (params : List Entry) : Nat → List Char → List Char
  | _, [] => []
  | 0, cs => cs
  | fuel + 1, c :: cs =>
      if c = '{' then
        let name := cs.takeWhile (fun d => d ≠ '}')
        match cs.dropWhile (fun d => d ≠ '}') with
        | _ :: rest =>
            match lookupKey (String.mk name) params with
            | some v => v.data ++ substitute params fuel rest
            | none => c :: substitute params fuel cs
        | [] => c :: substitute params fuel cs
      else c :: substitute params fuel cs

/-- Modelled from the spec: the placeholder names of a path template
(routes/tests is not among the sources). -/
def placeholders : Nat → List Char → List String
  | _, [] => []
  | 0, _ => []
  | fuel + 1, c :: cs =>
      if c = '{' then
        let name := cs.takeWhile (fun d => d ≠ '}')
        match cs.dropWhile (fun d => d ≠ '}') with
        | _ :: rest => String.mk name :: placeholders fuel rest
        | [] => placeholders fuel cs
      else placeholders fuel cs

/-- Modelled from the spec: the query string of the final URL
(routes/tests is not among the sources), `?k=v&k=v` or nothing. -/
def queryString (entries : List Entry) : String :=
  match entries with
  | [] => ""
  | _ :: _ => "?" ++ "&".intercalate (entries.map (fun e => e.1 ++ "=" ++ e.2))

/-- Modelled from the spec: the ConcreteRequest of RequestBuilder.build
(routes/tests is not among the sources).  `queryParams` is the merged
parameter list; `url` carries the substituted path and, as its query string,
the parameters no placeholder used. -/
structure ConcreteRequest where
  method : HttpMethod
  url : String
  headers : List Entry
  queryParams : List Entry
  body : Option JsonValue

/-- Modelled from the spec: RequestBuilder.build(endpoint, test,
projectBaseUrl) (routes/tests is not among the sources), spec section 4.1. -/
def build (endpoint : EndpointDefinition) (test : TestDefinition) (projectBaseUrl : String) :
    ConcreteRequest :=
  let params := mergeByKey endpoint.queryParams test.requestParams
  let template := endpoint.path.data
  let used := placeholders template.length template
  let remaining := params.filter (fun e => !used.contains e.1)
  { method := endpoint.method
    url := projectBaseUrl ++ String.mk (substitute params template.length template)
             ++ queryString remaining
    headers := mergeByKey endpoint.headers test.requestHeaders
    queryParams := params
    body := match test.requestBody with
            | some b => some b
            | none => endpoint.requestBody }

/-! ## HttpExecutor, ResponseNormalizer, RunRecorder -/

/-- Modelled from the spec: a received response of HttpExecutor
(routes/tests is not among the sources): status code and raw body text. -/
structure RawResponse where
  status : Int
  body : String

/-- Modelled from the spec: the transport failures of HttpExecutor
(routes/tests is not among the sources). -/
inductive TransportFailure where
  | timeout (timeoutMs : Nat)
  | connectionError (why : String)

/-- Modelled from the spec: the outcome of HttpExecutor.execute
(routes/tests is not among the sources); any received response, 4xx and 5xx
included, is a response. -/
inductive HttpOutcome where
  | response (r : RawResponse)
  | failure (f : TransportFailure)

/-- Modelled from the spec: the human-readable message of a transport failure
(routes/tests is not among the sources). -/
def failureMessage : TransportFailure → String
  | .timeout ms => "request timed out after " ++ toString ms ++ "ms"
  | .connectionError why => "connection error: " ++ why

/-- Modelled from the spec: ResponseNormalizer.normalize (routes/tests is not
among the sources): structured parsing first, the raw text as an opaque
string when that fails.  The JSON reader is a parameter. -/
def normalize (parseJson : String → Option JsonValue) (rawBody : String) : JsonValue :=
  match parseJson rawBody with
  | some v => v
  | none => JsonValue.str rawBody

/-- Modelled from the spec: whether an assertion needs path-based access into
a structured body, that is, whether its path has more than one segment
(routes/tests is not among the sources). -/
def needsStructure (a : Assertion) : Bool :=
  match parsePath a.path with
  | some (_ :: _ :: _) => true
  | _ => false

/-- Modelled from the spec: the normalized response when it is usable
(routes/tests is not among the sources): normalization is fatal exactly when
structured parsing failed and some assertion has a multi-segment path. -/
def usableResponse (parseJson : String → Option JsonValue) (assertions : List Assertion)
    (r : RawResponse) : Option JsonValue :=
  match parseJson r.body with
  | some v => some v
  | none => if assertions.any needsStructure then none else some (JsonValue.str r.body)

/-- The `enum` of `lastRun.status` in `src/server/models/Test.js`. -/
inductive RunStatus where
  | passed
  | failed
  | error
  deriving DecidableEq, Repr

/-- Modelled from the spec: the RunResult snapshot of spec section 3
(routes/tests is not among the sources). -/
structure RunResult where
  timestamp : Nat
  status : RunStatus
  responseTimeMs : Nat
  responseStatus : Option Int
  responseBody : Option JsonValue
  error : Option String

/-- Modelled from the spec: whether the response status meets the test's
expectedStatus, which it does when none is given (routes/tests is not among
the sources). -/
def statusMatches (expectedStatus : Option Int) (responseStatus : Int) : Bool :=
  match expectedStatus with
  | none => true
  | some e => responseStatus == e

/-- Modelled from the spec: RunRecorder.record(test, httpOutcome,
normalizedResponse, assertionOutcome, elapsedMs) (routes/tests is not among
the sources); the status follows the invariants of spec section 3.  The
clock reading is a parameter. -/
def record (test : TestDefinition) (httpOutcome : HttpOutcome)
    (normalizedResponse : Option JsonValue) (assertionOutcome : Option AssertionOutcome)
    (elapsedMs now : Nat) : RunResult :=
  match httpOutcome with
  | .failure f =>
      { timestamp := now, status := .error, responseTimeMs := elapsedMs,
        responseStatus := none, responseBody := none, error := some (failureMessage f) }
  | .response r =>
      match normalizedResponse, assertionOutcome with
      | some v, some o =>
          { timestamp := now
            status := if statusMatches test.expectedStatus r.status && o.overallPass
                      then .passed else .failed
            responseTimeMs := elapsedMs
            responseStatus := some r.status
            responseBody := some v
            error := none }
      | _, _ =>
          { timestamp := now, status := .error, responseTimeMs := elapsedMs,
            responseStatus := some r.status, responseBody := some (JsonValue.str r.body),
            error := some "response body could not be parsed" }

/-- Modelled from the spec: one test execution, runTest of spec section 6
(routes/tests is not among the sources): RequestBuilder, HttpExecutor,
ResponseNormalizer, AssertionEvaluator, RunRecorder in sequence.  The network
(`execute`, giving the outcome and the elapsed milliseconds), the JSON reader
and the clock are parameters. -/
def runTest (parseJson : String → Option JsonValue)
    (execute : ConcreteRequest → Nat → HttpOutcome × Nat)
    (endpoint : EndpointDefinition) (test : TestDefinition)
    (projectBaseUrl : String) (timeoutMs now : Nat) : RunResult :=
  let request := build endpoint test projectBaseUrl
  let answer := execute request timeoutMs
  match answer.1 with
  | .failure f => record test (.failure f) none none answer.2 now
  | .response r =>
      match usableResponse parseJson test.assertions r with
      | none => record test (.response r) none none answer.2 now
      | some v => record test (.response r) (some v) (some (evaluate v test.assertions)) answer.2 now

/-! ## Mongoose schema declarations (`src/server/models/Test.js`) -/

/-- The schema types the models use; `DocumentArray` is a path declared as a
list of sub-documents, `Nested` a path declared as an object of paths. -/
inductive SchemaType where
  | String | Number | Date | Mixed | ObjectId | Boolean | DocumentArray | Nested
  deriving DecidableEq, Repr

/-- One declared path of a Mongoose schema: its name, its type, whether it is
`required`, and its `enum` when it has one. -/
structure PathSpec where
  name : String
  type : SchemaType
  required : Bool
  enumValues : Option (List String)
  deriving DecidableEq, Repr

/-- The validation Mongoose runs on a String path: an absent value passes
unless the path is required (validators other than `required` are not run on
an absent value); a present value has to be non-empty when the path is
required and a member of the `enum` when there is one. -/
def PathSpec.acceptsString (spec : PathSpec) : Option String → Bool
  | none => !spec.required
  | some s =>
      (!spec.required || s != "") &&
        (match spec.enumValues with
         | none => true
         | some allowed => allowed.contains s)

/-- The validation Mongoose runs on a path without `enum`, given only whether
a value is present: a missing value fails exactly when the path is
required. -/
def PathSpec.acceptsPresence (spec : PathSpec) (present : Bool) : Bool :=
  present || !spec.required

namespace TestSchema

/-- The declaration `operator: { type: String, enum: [...] }` inside
`assertions` (Test.js lines 40-43). -/
def assertionOperator : PathSpec :=
  { name := "operator", type := .String, required := false,
    enumValues := some ["equals", "contains", "exists", "notExists", "greaterThan", "lessThan"] }

/-- The paths Test.js declares for one element of `assertions` (lines 37-46).
Mongoose adds the path `_id` to the schema of every element of a document
array; the schema of the element with it is `assertionElement`. -/
def assertions : List PathSpec :=
  [ { name := "path", type := .String, required := false, enumValues := none },
    assertionOperator,
    { name := "value", type := .Mixed, required := false, enumValues := none } ]

/-- The declaration `status: { type: String, enum: [...] }` inside `lastRun`
(Test.js lines 49-52). -/
def lastRunStatus : PathSpec :=
  { name := "status", type := .String, required := false,
    enumValues := some ["passed", "failed", "error"] }

/-- The declaration `error: String` inside `lastRun` (Test.js line 56). -/
def lastRunError : PathSpec :=
  { name := "error", type := .String, required := false, enumValues := none }

/-- The declared paths of `lastRun` (Test.js lines 47-57). -/
def lastRun : List PathSpec :=
  [ { name := "timestamp", type := .Date, required := false, enumValues := none },
    lastRunStatus,
    { name := "responseTime", type := .Number, required := false, enumValues := none },
    { name := "responseStatus", type := .Number, required := false, enumValues := none },
    { name := "responseBody", type := .Mixed, required := false, enumValues := none },
    lastRunError ]

end TestSchema

/-- A candidate element of `assertions`, each path being absent or holding a
value of its declared type. -/
structure AssertionDoc where
  path : Option String
  operator : Option String
  value : Option JsonValue

/-- A candidate `lastRun` snapshot, each path being absent or holding a value
of its declared type (a date as epoch milliseconds). -/
structure LastRunDoc where
  timestamp : Option Nat
  status : Option String
  responseTime : Option ℚ
  responseStatus : Option ℚ
  responseBody : Option JsonValue
  error : Option String

/-- The field names a list of declared paths gives a stored document. -/
def fieldNames (paths : List PathSpec) : List String :=
  paths.map (fun p => p.name)

/-- The path `_id` that Mongoose adds to the schema of every element of a
document array (no schema of the models switches it off with `_id: false`). -/
def implicitId : PathSpec :=
  { name := "_id", type := .ObjectId, required := false, enumValues := none }

/-- The schema of one element of `assertions`: the implicit `_id` and the
paths Test.js declares. -/
def TestSchema.assertionElement : List PathSpec :=
  implicitId :: TestSchema.assertions

/-- The members stored for a nested path such as `lastRun`, given the members
that were supplied: in strict mode, the default, a member the schema does not
declare is dropped. -/
def storedNested (paths : List PathSpec) (supplied : List String) : List String :=
  supplied.filter (fun k => (fieldNames paths).contains k)

/-- The members stored for one element of a document array, given the paths
the model declares for it and the members that were supplied: the `_id`, which
Mongoose generates when none is supplied, and the declared members among the
supplied ones. -/
def storedElement (declared : List PathSpec) (supplied : List String) : List String :=
  "_id" :: storedNested declared (supplied.filter (fun k => k != "_id"))

/-- Validation of one element of `assertions` against the Test schema: every
declared path is checked; only `operator` carries a validator that can fail. -/
def validateAssertion (d : AssertionDoc) : Bool :=
  TestSchema.assertions.all (fun spec =>
    if spec.name = "path" then spec.acceptsString d.path
    else if spec.name = "operator" then spec.acceptsString d.operator
    else spec.acceptsPresence d.value.isSome)

/-- Validation of a `lastRun` snapshot against the Test schema: every declared
path is checked with its own validators; no validator reads another path. -/
def validateLastRun (d : LastRunDoc) : Bool :=
  TestSchema.lastRun.all (fun spec =>
    if spec.name = "timestamp" then spec.acceptsPresence d.timestamp.isSome
    else if spec.name = "status" then spec.acceptsString d.status
    else if spec.name = "responseTime" then spec.acceptsPresence d.responseTime.isSome
    else if spec.name = "responseStatus" then spec.acceptsPresence d.responseStatus.isSome
    else if spec.name = "responseBody" then spec.acceptsPresence d.responseBody.isSome
    else spec.acceptsString d.error)

/-- The operator names of the spec, section 3. -/
def Operator.name : Operator → String
  | .equals => "equals"
  | .contains => "contains"
  | .exists => "exists"
  | .notExists => "notExists"
  | .greaterThan => "greaterThan"
  | .lessThan => "lessThan"

/-- Every operator, in the order of the spec. -/
def Operator.all : List Operator :=
  [.equals, .contains, .exists, .notExists, .greaterThan, .lessThan]

/-! ## Sample inputs -/

namespace Sample

/-- A JSON reader that reads every body as an object with the member ok. -/
def parseOk (_ : String) : Option JsonValue :=
  some (.obj [("ok", .bool true)])

/-- A network that answers every request with status 200 after 12 ms. -/
def answer200 (_ : ConcreteRequest) (_ : Nat) : HttpOutcome × Nat :=
  (.response { status := 200, body := "ok" }, 12)

/-- An endpoint `GET /ping` without defaults. -/
def pingEndpoint : EndpointDefinition :=
  { method := .GET, path := "/ping", headers := [], queryParams := [], requestBody := none }

/-- A test that expects the given status and the member `ok` to exist. -/
def pingTest (expected : Int) : TestDefinition :=
  { name := "ping", requestHeaders := [], requestParams := [], requestBody := none,
    expectedStatus := some expected, expectedResponse := none,
    assertions := [{ path := "ok", operator := .exists, value := .null }] }

/-- The body `{"data": {"items": [{"name": "Alice"}]}}` of the spec's scenario. -/
def aliceBody : JsonValue :=
  .obj [("data", .obj [("items", .arr [.obj [("name", .str "Alice")]])])]

end Sample

/-- The JSON type of a value: 0 null, 1 boolean, 2 number, 3 string, 4 array,
5 object. -/
def JsonValue.kind : JsonValue → Nat
  | .null => 0
  | .bool _ => 1
  | .num _ => 2
  | .str _ => 3
  | .arr _ => 4
  | .obj _ => 5

/-- The keys of an object, in document order. -/
def objectKeys (fields : List (String × JsonValue)) : List String :=
  fields.map (fun kv => kv.1)

namespace Sample

/-- An endpoint `GET /users/{id}` with two default headers and one default
query parameter. -/
def usersEndpoint : EndpointDefinition :=
  { method := .GET, path := "/users/\x7bid\x7d",
    headers := [("Accept", "text/plain"), ("X-Env", "dev")],
    queryParams := [("page", "1")],
    requestBody := some (.str "default") }

/-- A test that overrides the `Accept` header and supplies the `id`
parameter. -/
def usersTest : TestDefinition :=
  { name := "user 42", requestHeaders := [("Accept", "application/json")],
    requestParams := [("id", "42")], requestBody := none,
    expectedStatus := none, expectedResponse := none, assertions := [] }

end Sample

/-! ## The top-level paths of the three models -/

namespace TestSchema

/-- The declaration `endpoint: { type: ObjectId, ref: 'Endpoint', required: true }`
(Test.js lines 4-8). -/
def endpoint : PathSpec :=
  { name := "endpoint", type := .ObjectId, required := true, enumValues := none }

/-- The declaration `name: { type: String, required: true }` (Test.js lines 9-12). -/
def testName : PathSpec :=
  { name := "name", type := .String, required := true, enumValues := none }

/-- The declaration `expectedStatus: { type: Number }` (Test.js lines 31-33). -/
def expectedStatus : PathSpec :=
  { name := "expectedStatus", type := .Number, required := false, enumValues := none }

/-- The top-level paths of the Test schema, in the order of Test.js. -/
def paths : List PathSpec :=
  [ endpoint,
    testName,
    { name := "description", type := .String, required := false, enumValues := none },
    { name := "requestHeaders", type := .DocumentArray, required := false, enumValues := none },
    { name := "requestParams", type := .DocumentArray, required := false, enumValues := none },
    { name := "requestBody", type := .Mixed, required := false, enumValues := none },
    expectedStatus,
    { name := "expectedResponse", type := .Mixed, required := false, enumValues := none },
    { name := "assertions", type := .DocumentArray, required := false, enumValues := none },
    { name := "lastRun", type := .Nested, required := false, enumValues := none },
    { name := "createdAt", type := .Date, required := false, enumValues := none },
    { name := "updatedAt", type := .Date, required := false, enumValues := none } ]

end TestSchema

namespace EndpointSchema

/-- The declaration `project: { type: ObjectId, ref: 'Project', required: true }`
(Endpoint.js lines 4-8). -/
def project : PathSpec :=
  { name := "project", type := .ObjectId, required := true, enumValues := none }

/-- The declaration `name: { type: String, required: true }` (Endpoint.js
lines 9-12). -/
def endpointName : PathSpec :=
  { name := "name", type := .String, required := true, enumValues := none }

/-- The declaration `path: { type: String, required: true }` (Endpoint.js
lines 16-19). -/
def path : PathSpec :=
  { name := "path", type := .String, required := true, enumValues := none }

/-- The declaration `method: { type: String, enum: [...], required: true }`
(Endpoint.js lines 20-24). -/
def method : PathSpec :=
  { name := "method", type := .String, required := true,
    enumValues := some ["GET", "POST", "PUT", "DELETE", "PATCH", "OPTIONS", "HEAD"] }

end EndpointSchema

namespace ProjectSchema

/-- The declaration `name: { type: String, required: true }` (Project.js
lines 8-11). -/
def projectName : PathSpec :=
  { name := "name", type := .String, required := true, enumValues := none }

/-- The declaration `baseUrl: { type: String, required: true }` (Project.js
lines 15-18). -/
def baseUrl : PathSpec :=
  { name := "baseUrl", type := .String, required := true, enumValues := none }

/-- The declaration `environment: { type: String, enum: [...], default:
'development' }` (Project.js lines 19-23). -/
def environment : PathSpec :=
  { name := "environment", type := .String, required := false,
    enumValues := some ["development", "testing", "production"] }

/-- The `default` of `environment` (Project.js line 22). -/
def environmentDefault : String := "development"

/-- The `default` of `isPublic` (Project.js line 26). -/
def isPublicDefault : Bool := false

/-- The declaration `role: { type: String, enum: [...], default: 'viewer' }`
inside `collaborators` (Project.js lines 34-38). -/
def collaboratorRole : PathSpec :=
  { name := "role", type := .String, required := false,
    enumValues := some ["viewer", "editor", "admin"] }

/-- The `default` of a collaborator's `role` (Project.js line 37). -/
def collaboratorRoleDefault : String := "viewer"

end ProjectSchema

/-- A candidate Test document, each path being absent or holding a value of
its declared type (an ObjectId as its hex string, a number as a rational). -/
structure TestDoc where
  endpoint : Option String
  name : Option String
  description : Option String
  requestHeaders : List (Option String × Option String)
  requestParams : List (Option String × Option String)
  requestBody : Option JsonValue
  expectedStatus : Option ℚ
  expectedResponse : Option JsonValue
  assertions : List AssertionDoc
  lastRun : LastRunDoc

/-- Validation of a Test document: the validators of every declared path.
Only `endpoint`, `name`, the operator of each assertion and `lastRun.status`
carry a validator that can fail. -/
def validateTest (d : TestDoc) : Bool :=
  TestSchema.endpoint.acceptsPresence d.endpoint.isSome &&
    TestSchema.testName.acceptsString d.name &&
    TestSchema.expectedStatus.acceptsPresence d.expectedStatus.isSome &&
    d.assertions.all validateAssertion &&
    validateLastRun d.lastRun

/-- A candidate Endpoint document, each path being absent or holding a value
of its declared type. -/
structure EndpointDoc where
  project : Option String
  name : Option String
  description : Option String
  path : Option String
  method : Option String
  headers : List (Option String × Option String × Option String)
  queryParams : List (Option String × Option String × Option String)
  requestBody : Option JsonValue
  responseSchema : Option JsonValue

/-- Validation of an Endpoint document: `project`, `name`, `path` and
`method` are required, `method` has to be in its enum. -/
def validateEndpoint (d : EndpointDoc) : Bool :=
  EndpointSchema.project.acceptsPresence d.project.isSome &&
    EndpointSchema.endpointName.acceptsString d.name &&
    EndpointSchema.path.acceptsString d.path &&
    EndpointSchema.method.acceptsString d.method

/-- The `MenuItem` values of the method `Select` of the Add Endpoint form
(`src/client/src/pages/ProjectDetail.js` lines 380-386). -/
def addEndpointMethodOptions : List String :=
  ["GET", "POST", "PUT", "DELETE", "PATCH", "OPTIONS", "HEAD"]

/-- The `defaultValues.method` of the Add Endpoint form (ProjectDetail.js
line 77). -/
def addEndpointDefaultMethod : String := "GET"

/-- The payload of `onSubmitNewTest` in
`src/client/src/pages/EndpointDetail.js` (lines 164-169), the object
`{ ...data, endpoint: endpointId }`: the members of the form data, with the
member `endpoint` set to the page's endpointId. -/
def onSubmitNewTest (endpointId : String) (data : List (String × JsonValue)) :
    List (String × JsonValue) :=
  data.filter (fun kv => kv.1 != "endpoint") ++ [("endpoint", JsonValue.str endpointId)]

/-! ## Projects: documents and the store (`src/server/models/Project.js`) -/

/-- One element of `collaborators` (Project.js lines 28-40): `user` is an
optional reference, `role` has a default and is therefore always present. -/
structure Collaborator where
  user : Option String
  role : String
  deriving DecidableEq, Repr

/-- A Project document with its `_id`, held in `id` as the hex string of the
ObjectId.  Paths without a default may be absent; `environment`, `isPublic`
and the two dates have defaults and are always present. -/
structure ProjectDoc where
  id : String
  user : Option String
  name : Option String
  description : Option String
  baseUrl : Option String
  environment : String
  isPublic : Bool
  collaborators : List Collaborator
  createdAt : Nat
  updatedAt : Nat
  deriving DecidableEq, Repr

/-- Validation of a Project document: `name` and `baseUrl` are required,
`environment` and every collaborator's `role` have to be in their enum. -/
def validateProject (p : ProjectDoc) : Bool :=
  ProjectSchema.projectName.acceptsString p.name &&
    ProjectSchema.baseUrl.acceptsString p.baseUrl &&
    ProjectSchema.environment.acceptsString (some p.environment) &&
    p.collaborators.all (fun c => ProjectSchema.collaboratorRole.acceptsString (some c.role))

/-- The document `new Project(fields)` builds: a path that is not given takes
its schema default, `collaborators` starts empty, the dates default to now. -/
def newProjectDoc (id : String) (user name description baseUrl environment : Option String)
    (isPublic : Option Bool) (now : Nat) : ProjectDoc :=
  { id := id, user := user, name := name, description := description, baseUrl := baseUrl,
    environment := environment.getD ProjectSchema.environmentDefault,
    isPublic := isPublic.getD ProjectSchema.isPublicDefault,
    collaborators := [], createdAt := now, updatedAt := now }

/-- What a route body can throw into its `catch`. -/
inductive Thrown where
  | castObjectId
  | typeError
  | validation
  deriving DecidableEq, Repr

/-- The answers of the project routes. -/
inductive Response where
  | project (p : ProjectDoc)
  | projects (ps : List ProjectDoc)
  | message (status : Nat) (msg : String)
  | validationErrors (msgs : List String)
  | serverError
  deriving DecidableEq, Repr

/-- The HTTP status of an answer; `res.json` without `res.status` is 200. -/
def Response.status : Response → Nat
  | .project _ => 200
  | .projects _ => 200
  | .message s _ => s
  | .validationErrors _ => 400
  | .serverError => 500

/-- The call `Project.findById(id)`.  Mongoose first casts the id to an
ObjectId and throws a cast error when it cannot; the cast belongs to the
library and is the parameter `castId`, which gives the ObjectId as the hex
string under which documents are stored.  The result is the stored project
with that `_id`, if any. -/
def findById (castId : String → Option String) (db : List ProjectDoc) (id : String) :
    Except Thrown (Option ProjectDoc) :=
  match castId id with
  | none => .error .castObjectId
  | some oid => .ok (db.find? (fun p => p.id == oid))

/-- The call `x.toString()` on a reference that may be undefined. -/
def toStringOf : Option String → Except Thrown String
  | none => .error .typeError
  | some s => .ok s

/-- The call `collaborators.some(collab => collab.user.toString() === id)`:
the entries are visited in order until one matches. -/
def someCollaborator (id : String) : List Collaborator → Except Thrown Bool
  | [] => .ok false
  | c :: rest =>
      match toStringOf c.user with
      | .error e => .error e
      | .ok u => if u = id then .ok true else someCollaborator id rest

/-- The call `project.save()` for a new document: validation, then insert. -/
def saveNew (db : List ProjectDoc) (p : ProjectDoc) : Except Thrown (List ProjectDoc) :=
  if validateProject p then .ok (db ++ [p]) else .error .validation

/-- The call `project.save()` for a stored document: validation, then the
stored document with the same id is replaced. -/
def saveExisting (db : List ProjectDoc) (p : ProjectDoc) : Except Thrown (List ProjectDoc) :=
  if validateProject p then .ok (db.map (fun q => if q.id = p.id then p else q))
  else .error .validation

/-- The `catch` of the routes with an id parameter: a cast error of the id is
404 'Project not found', anything else 500 'Server error'. -/
def catchById (db : List ProjectDoc) (r : Except Thrown (Response × List ProjectDoc)) :
    Response × List ProjectDoc :=
  match r with
  | .ok out => out
  | .error .castObjectId => (.message 404 "Project not found", db)
  | .error _ => (.serverError, db)

/-- JavaScript truthiness of an optional string: present and not empty. -/
def truthy : Option String → Bool
  | none => false
  | some s => s != ""

/-- The body of `POST api/projects` and `PUT api/projects/:id`. -/
structure ProjectBody where
  name : Option String
  description : Option String
  baseUrl : Option String
  environment : Option String
  isPublic : Option Bool
  deriving DecidableEq, Repr

/-- The body of `POST api/projects/:id/collaborators`. -/
structure CollaboratorBody where
  email : Option String
  role : Option String
  deriving DecidableEq, Repr

/-! ## The project routes (`src/server/routes/projects.js`)

The requester is the id the `auth` middleware puts in `req.user.id`; the
middleware, the User model and the express-validator library are not among
the sources, so the user lookup and the email test are parameters, and so is
the cast of the `:id` parameter to an ObjectId, which Mongoose does. -/

/-- Whether a project matches the query of `GET api/projects` (lines 14-19):
its `user` is the requester or some collaborator's `user` is. -/
def ownsOrCollaborates (requester : String) (p : ProjectDoc) : Bool :=
  p.user == some requester || p.collaborators.any (fun c => c.user == some requester)

/-- The route `GET api/projects` (lines 11-26): the matching projects sorted
by `createdAt` descending. -/
def listProjects (db : List ProjectDoc) (requester : String) : Response :=
  .projects ((db.filter (ownsOrCollaborates requester)).insertionSort
    (fun a b => b.createdAt ≤ a.createdAt))

/-- The `try` block of `GET api/projects/:id` (lines 33-49). -/
def getProjectTry (castId : String → Option String) (db : List ProjectDoc) (requester id : String) : Except Thrown Response :=
  match findById castId db id with
  | .error e => .error e
  | .ok none => .ok (.message 404 "Project not found")
  | .ok (some project) =>
      match toStringOf project.user with
      | .error e => .error e
      | .ok owner =>
          match someCollaborator requester project.collaborators with
          | .error e => .error e
          | .ok isCollaborator =>
              if !(owner == requester) && !isCollaborator && !project.isPublic then
                .ok (.message 401 "Not authorized to access this project")
              else .ok (.project project)

/-- The route `GET api/projects/:id` (lines 31-57). -/
def getProject (castId : String → Option String) (db : List ProjectDoc) (requester id : String) : Response :=
  match getProjectTry castId db requester id with
  | .ok r => r
  | .error .castObjectId => .message 404 "Project not found"
  | .error _ => .serverError

/-- The express-validator chain `check(field, msg).not().isEmpty()`: an error
for a missing or empty value. -/
def checkNotEmpty (value : Option String) (msg : String) : List String :=
  if truthy value then [] else [msg]

/-- The validation errors of `POST api/projects` (lines 66-69). -/
def createProjectErrors (body : ProjectBody) : List String :=
  checkNotEmpty body.name "Name is required" ++ checkNotEmpty body.baseUrl "Base URL is required"

/-- The expression `environment || 'development'` (line 85). -/
def environmentOrDefault (environment : Option String) : String :=
  if truthy environment then environment.getD "development" else "development"

/-- The expression `isPublic || false` (line 86). -/
def isPublicOrFalse (isPublic : Option Bool) : Bool :=
  isPublic.getD false || false

/-- The route `POST api/projects` (lines 62-97); the `_id` of the new
document and the clock are parameters. -/
def createProject (db : List ProjectDoc) (requester : String) (body : ProjectBody)
    (newId : String) (now : Nat) : Response × List ProjectDoc :=
  if !(createProjectErrors body).isEmpty then
    (.validationErrors (createProjectErrors body), db)
  else
    let newProject := newProjectDoc newId (some requester) body.name body.description
      body.baseUrl (some (environmentOrDefault body.environment))
      (some (isPublicOrFalse body.isPublic)) now
    match saveNew db newProject with
    | .ok db' => (.project newProject, db')
    | .error _ => (.serverError, db)

/-- The field updates of `PUT api/projects/:id` (lines 115-124). -/
def applyUpdate (project : ProjectDoc) (body : ProjectBody) (now : Nat) : ProjectDoc :=
  { project with
    name := if truthy body.name then body.name else project.name
    description := if body.description.isSome then body.description else project.description
    baseUrl := if truthy body.baseUrl then body.baseUrl else project.baseUrl
    environment := if truthy body.environment then body.environment.getD project.environment
                   else project.environment
    isPublic := match body.isPublic with
                | some b => b
                | none => project.isPublic
    updatedAt := now }

/-- The `try` block of `PUT api/projects/:id` (lines 104-127). -/
def updateProjectTry (castId : String → Option String) (db : List ProjectDoc) (requester id : String) (body : ProjectBody)
    (now : Nat) : Except Thrown (Response × List ProjectDoc) :=
  match findById castId db id with
  | .error e => .error e
  | .ok none => .ok (.message 404 "Project not found", db)
  | .ok (some project) =>
      match toStringOf project.user with
      | .error e => .error e
      | .ok owner =>
          if owner ≠ requester then
            .ok (.message 401 "Not authorized to update this project", db)
          else
            match saveExisting db (applyUpdate project body now) with
            | .error e => .error e
            | .ok db' => .ok (.project (applyUpdate project body now), db')

/-- The route `PUT api/projects/:id` (lines 102-135). -/
def updateProject (castId : String → Option String) (db : List ProjectDoc) (requester id : String) (body : ProjectBody)
    (now : Nat) : Response × List ProjectDoc :=
  catchById db (updateProjectTry castId db requester id body now)

/-- The `try` block of `DELETE api/projects/:id` (lines 142-154).  The call
`project.remove()` removes the project document only: Project.js declares no
remove hook, so the endpoints and tests of the project, which are documents of
their own models, stay stored. -/
def deleteProjectTry (castId : String → Option String) (db : List ProjectDoc) (requester id : String) :
    Except Thrown (Response × List ProjectDoc) :=
  match findById castId db id with
  | .error e => .error e
  | .ok none => .ok (.message 404 "Project not found", db)
  | .ok (some project) =>
      match toStringOf project.user with
      | .error e => .error e
      | .ok owner =>
          if owner ≠ requester then
            .ok (.message 401 "Not authorized to delete this project", db)
          else .ok (.message 200 "Project removed", db.filter (fun q => q.id ≠ project.id))

/-- The route `DELETE api/projects/:id` (lines 140-162). -/
def deleteProject (castId : String → Option String) (db : List ProjectDoc) (requester id : String) : Response × List ProjectDoc :=
  catchById db (deleteProjectTry castId db requester id)

/-- The validation errors of `POST api/projects/:id/collaborators` (lines
171-174); `isEmail` is the email test of the validator library. -/
def addCollaboratorErrors (isEmail : String → Bool) (body : CollaboratorBody) : List String :=
  (if isEmail (body.email.getD "") then [] else ["Email is required"]) ++
    (if ["viewer", "editor", "admin"].contains (body.role.getD "") then []
     else ["Role is required"])

/-- The `try` block of `POST api/projects/:id/collaborators` (lines 183-213);
`findUserByEmail` is `User.findOne({ email })`, giving the user's id. -/
def addCollaboratorTry (castId : String → Option String) (findUserByEmail : String → Option String)
    (db : List ProjectDoc) (requester id : String) (body : CollaboratorBody) (now : Nat) :
    Except Thrown (Response × List ProjectDoc) :=
  match findById castId db id with
  | .error e => .error e
  | .ok none => .ok (.message 404 "Project not found", db)
  | .ok (some project) =>
      match toStringOf project.user with
      | .error e => .error e
      | .ok owner =>
          if owner ≠ requester then
            .ok (.message 401 "Not authorized to add collaborators", db)
          else
            match findUserByEmail (body.email.getD "") with
            | none => .ok (.message 404 "User not found", db)
            | some userId =>
                match someCollaborator userId project.collaborators with
                | .error e => .error e
                | .ok true => .ok (.message 400 "User is already a collaborator", db)
                | .ok false =>
                    let updated : ProjectDoc :=
                      { project with
                        collaborators := project.collaborators ++
                          [{ user := some userId, role := body.role.getD "" }]
                        updatedAt := now }
                    match saveExisting db updated with
                    | .error e => .error e
                    | .ok db' => .ok (.project updated, db')

/-- The route `POST api/projects/:id/collaborators` (lines 167-222). -/
def addCollaborator (castId : String → Option String) (isEmail : String → Bool) (findUserByEmail : String → Option String)
    (db : List ProjectDoc) (requester id : String) (body : CollaboratorBody) (now : Nat) :
    Response × List ProjectDoc :=
  if !(addCollaboratorErrors isEmail body).isEmpty then
    (.validationErrors (addCollaboratorErrors isEmail body), db)
  else catchById db (addCollaboratorTry castId findUserByEmail db requester id body now)

namespace Sample

/-- A well-formed project id. -/
def projectId : String := "64b0000000000000000000a1"

/-- A well-formed project id that no sample project has. -/
def otherId : String := "64b0000000000000000000ff"

/-- An ObjectId cast for the examples, which use 24-digit hex strings only:
such a string casts to itself in lower case, whatever the case of its digits;
every other string is taken not to cast. -/
def castHex24 (s : String) : Option String :=
  if s.data.length == 24 &&
      s.data.all (fun c => c.isDigit || ('a' ≤ c && c ≤ 'f') || ('A' ≤ c && c ≤ 'F'))
  then some (String.mk (s.data.map Char.toLower)) else none

/-- A public project of user `u1` with the collaborator `u2`. -/
def demoProject : ProjectDoc :=
  { id := projectId, user := some "u1", name := some "Demo", description := none,
    baseUrl := some "http://localhost:3000", environment := "development", isPublic := true,
    collaborators := [{ user := some "u2", role := "admin" }], createdAt := 10, updatedAt := 10 }

/-- The same project with a collaborator entry that names no user. -/
def danglingProject : ProjectDoc :=
  { demoProject with collaborators := [{ user := none, role := "viewer" }] }

end Sample

namespace Sample

/-- A Test document with a name and an endpoint reference and nothing else. -/
def minimalTest : TestDoc :=
  { endpoint := some "64b0000000000000000000e1", name := some "ping", description := none,
    requestHeaders := [], requestParams := [], requestBody := none, expectedStatus := none,
    expectedResponse := none, assertions := [],
    lastRun := ⟨none, none, none, none, none, none⟩ }

/-- An Endpoint document `GET /ping` of the sample project. -/
def minimalEndpoint : EndpointDoc :=
  { project := some projectId, name := some "ping", description := none, path := some "/ping",
    method := some "GET", headers := [], queryParams := [], requestBody := none,
    responseSchema := none }

end Sample

/-- The users the collaborator entries of a project name, in order. -/
def collaboratorUsers (p : ProjectDoc) : List (Option String) :=
  p.collaborators.map (fun c => c.user)

/-- The roles `check('role', ...).isIn([...])` lets through in
`POST api/projects/:id/collaborators` (projects.js line 173). -/
def addCollaboratorRoles : List String :=
  ["viewer", "editor", "admin"]

/-! ## Lemmas on the path walk -/

theorem walk_shape (v : JsonValue) (segs : List PathSegment) :
    ((walk v segs).found = true ∧ ∃ w, (walk v segs).value = some w) ∨
      ((walk v segs).found = false ∧ (walk v segs).value = none) := by
  induction segs generalizing v with
  | nil => exact Or.inl ⟨rfl, v, rfl⟩
  | cons s rest ih =>
      cases h : stepSegment v s with
      | none => simp [walk, h]
      | some child => simpa [walk, h] using ih child

theorem walk_append (v : JsonValue) (pre rest : List PathSegment) :
    walk v (pre ++ rest) =
      match (walk v pre).value with
      | some w => walk w rest
      | none => { found := false, value := none } := by
  induction pre generalizing v with
  | nil => rfl
  | cons s pre ih =>
      cases h : stepSegment v s with
      | none => simp [walk, h]
      | some child => simpa [walk, h] using ih child

theorem walk_not_found_iff (v : JsonValue) (segs : List PathSegment) :
    (walk v segs).found = false ↔
      ∃ pre s rest w, segs = pre ++ s :: rest ∧ (walk v pre).value = some w ∧
        stepSegment w s = none := by
  induction segs generalizing v with
  | nil =>
      constructor
      · intro h
        simp [walk] at h
      · rintro ⟨pre, s, rest, w, h, -, -⟩
        simp at h
  | cons s rest ih =>
      cases h : stepSegment v s with
      | none =>
          constructor
          · intro _
            exact ⟨[], s, rest, v, rfl, rfl, h⟩
          · intro _
            simp [walk, h]
      | some child =>
          have hw : walk v (s :: rest) = walk child rest := by simp [walk, h]
          rw [hw, ih child]
          constructor
          · rintro ⟨pre, t, post, w, he, hv, hs⟩
            refine ⟨s :: pre, t, post, w, by simp [he], ?_, hs⟩
            simpa [walk, h] using hv
          · rintro ⟨pre, t, post, w, he, hv, hs⟩
            cases pre with
            | nil =>
                simp at he
                obtain ⟨rfl, rfl⟩ := he
                simp [walk] at hv
                subst hv
                rw [h] at hs
                cases hs
            | cons q pre =>
                simp at he
                obtain ⟨rfl, rfl⟩ := he
                refine ⟨pre, t, post, w, rfl, ?_, hs⟩
                simpa [walk, h] using hv

theorem stepSegment_key_none_iff (w : JsonValue) (k : String) :
    stepSegment w (.key k) = none ↔ ∀ fs, w = .obj fs → lookupField k fs = none := by
  cases w <;> simp [stepSegment]

theorem stepSegment_index_none_iff (w : JsonValue) (i : Nat) :
    stepSegment w (.index i) = none ↔ ∀ xs, w = .arr xs → xs.length ≤ i := by
  cases w <;> simp [stepSegment, List.get?_eq_none]

theorem stepSegment_scalar (w : JsonValue) (s : PathSegment) (h : w.isScalar = true) :
    stepSegment w s = none := by
  cases w <;> cases s <;> simp_all [stepSegment, JsonValue.isScalar]

/-! ## C1: classification of a run -/

theorem record_status_passed_iff (test : TestDefinition) (r : RawResponse)
    (normalized : Option JsonValue) (o : Option AssertionOutcome) (elapsedMs now : Nat) :
    (record test (.response r) normalized o elapsedMs now).status = .passed ↔
      ∃ v out, normalized = some v ∧ o = some out ∧
        statusMatches test.expectedStatus r.status = true ∧ out.overallPass = true := by
  cases normalized with
  | none => simp [record]
  | some v =>
      cases o with
      | none => simp [record]
      | some out =>
          by_cases h : (statusMatches test.expectedStatus r.status && out.overallPass) = true
          · simp [record, h]
            simpa using h
          · simp [record, h]
            simpa using h

theorem statusMatches_iff (expectedStatus : Option Int) (code : Int) :
    statusMatches expectedStatus code = true ↔
      expectedStatus = none ∨ expectedStatus = some code := by
  cases expectedStatus with
  | none => simp [statusMatches]
  | some e =>
      simp [statusMatches]
      exact eq_comm

theorem evaluate_overallPass_iff (response : JsonValue) (assertions : List Assertion) :
    (evaluate response assertions).overallPass = true ↔
      ∀ a ∈ assertions, (evalAssertion response a).pass = true := by
  simp [evaluate, List.all_eq_true]

/-- C1. A test execution records status passed exactly when a response was
received, the expected status is absent or equals the response status, and
every assertion evaluates to true on the normalized response; a 200 response
on which all assertions pass is passed with expectedStatus 200 and failed with
expectedStatus 201. -/
theorem runTest_passed_iff (parseJson : String → Option JsonValue)
    (execute : ConcreteRequest → Nat → HttpOutcome × Nat)
    (endpoint : EndpointDefinition) (test : TestDefinition)
    (projectBaseUrl : String) (timeoutMs now : Nat) :
    ((runTest parseJson execute endpoint test projectBaseUrl timeoutMs now).status = .passed ↔
      ∃ r, (execute (build endpoint test projectBaseUrl) timeoutMs).1 = .response r ∧
        (test.expectedStatus = none ∨ test.expectedStatus = some r.status) ∧
        ∃ v, usableResponse parseJson test.assertions r = some v ∧
          ∀ a ∈ test.assertions, (evalAssertion v a).pass = true) ∧
    (∀ r v, (execute (build endpoint test projectBaseUrl) timeoutMs).1 = .response r →
        r.status = 200 →
        usableResponse parseJson test.assertions r = some v →
        (∀ a ∈ test.assertions, (evalAssertion v a).pass = true) →
        (test.expectedStatus = some 200 →
          (runTest parseJson execute endpoint test projectBaseUrl timeoutMs now).status
            = .passed) ∧
        (test.expectedStatus = some 201 →
          (runTest parseJson execute endpoint test projectBaseUrl timeoutMs now).status
            = .failed)) := by
  have key : ∀ r v, (execute (build endpoint test projectBaseUrl) timeoutMs).1 = .response r →
      usableResponse parseJson test.assertions r = some v →
      (runTest parseJson execute endpoint test projectBaseUrl timeoutMs now).status =
        if statusMatches test.expectedStatus r.status && (evaluate v test.assertions).overallPass
        then .passed else .failed := by
    intro r v hr hv
    simp [runTest, hr, hv, record]
  constructor
  · constructor
    · intro h
      cases hr : (execute (build endpoint test projectBaseUrl) timeoutMs).1 with
      | failure f => simp [runTest, hr, record] at h
      | response r =>
          cases hv : usableResponse parseJson test.assertions r with
          | none => simp [runTest, hr, hv, record] at h
          | some v =>
              rw [key r v hr hv] at h
              by_cases hc : (statusMatches test.expectedStatus r.status &&
                  (evaluate v test.assertions).overallPass) = true
              · rw [Bool.and_eq_true] at hc
                exact ⟨r, rfl, (statusMatches_iff _ _).1 hc.1, v, hv,
                  (evaluate_overallPass_iff v _).1 hc.2⟩
              · simp [hc] at h
    · rintro ⟨r, hr, hs, v, hv, ha⟩
      rw [key r v hr hv]
      have h1 := (statusMatches_iff _ _).2 hs
      have h2 := (evaluate_overallPass_iff v _).2 ha
      simp [h1, h2]
  · intro r v hr h200 hv ha
    have h2 := (evaluate_overallPass_iff v _).2 ha
    constructor
    · intro he
      rw [key r v hr hv]
      simp [statusMatches, he, h200, h2]
    · intro he
      rw [key r v hr hv]
      simp [statusMatches, he, h200, h2]
/-- Witness for C1: the sample 200 response is passed when 200 is expected. -/
theorem runTest_passed_iff_witness :
    (runTest Sample.parseOk Sample.answer200 Sample.pingEndpoint (Sample.pingTest 200)
        "http://localhost" 5000 0).status = .passed :=
  ((runTest_passed_iff Sample.parseOk Sample.answer200 Sample.pingEndpoint (Sample.pingTest 200)
      "http://localhost" 5000 0).2
    { status := 200, body := "ok" } (.obj [("ok", .bool true)])
    rfl rfl rfl (by decide)).1 rfl

/-! ## C2: path resolution -/

theorem resolve_shape (v : JsonValue) (p : String) :
    ((resolve v p).found = true ∧ ∃ w, (resolve v p).value = some w) ∨
      ((resolve v p).found = false ∧ (resolve v p).value = none) := by
  unfold resolve
  cases parsePath p with
  | none => exact Or.inr ⟨rfl, rfl⟩
  | some segs => exact walk_shape v segs

/-- C2. For every value and every path string, resolve returns a result whose
found flag says whether a value was reached; it is found = false exactly when
the string is no path or some segment cannot be satisfied at the value reached
so far (a key the object lacks, an index past the end of the array, or any
segment on a scalar); the empty path gives found = true and the whole value. -/
theorem resolve_never_throws (v : JsonValue) (p : String) :
    (((resolve v p).found = true ∧ ∃ w, (resolve v p).value = some w) ∨
      ((resolve v p).found = false ∧ (resolve v p).value = none)) ∧
    ((resolve v p).found = false ↔
      parsePath p = none ∨
      ∃ segs pre s rest w, parsePath p = some segs ∧ segs = pre ++ s :: rest ∧
        (walk v pre).value = some w ∧ stepSegment w s = none) ∧
    (∀ w k, stepSegment w (.key k) = none ↔ ∀ fs, w = .obj fs → lookupField k fs = none) ∧
    (∀ w i, stepSegment w (.index i) = none ↔ ∀ xs, w = .arr xs → xs.length ≤ i) ∧
    (∀ w s, w.isScalar = true → stepSegment w s = none) ∧
    ((resolve v "").found = true ∧ (resolve v "").value = some v) := by
  refine ⟨resolve_shape v p, ?_, stepSegment_key_none_iff, stepSegment_index_none_iff,
    stepSegment_scalar, rfl, rfl⟩
  unfold resolve
  cases h : parsePath p with
  | none => simp
  | some segs =>
      simp only [walk_not_found_iff, Option.some.injEq, false_or, reduceCtorEq]
      constructor
      · rintro ⟨pre, s, rest, w, h1, h2, h3⟩
        exact ⟨segs, pre, s, rest, w, rfl, h1, h2, h3⟩
      · rintro ⟨segs', pre, s, rest, w, h0, h1, h2, h3⟩
        subst h0
        exact ⟨pre, s, rest, w, h1, h2, h3⟩

/-- Witness for C2: in the spec's sample body the path `data.items[1].name`
stops at the index, `data.items[0].name` resolves. -/
theorem resolve_never_throws_witness :
    (resolve Sample.aliceBody "data.items[1].name").found = false ∧
      (resolve Sample.aliceBody "data.items[0].name").found = true :=
  ⟨((resolve_never_throws Sample.aliceBody "data.items[1].name").2.1).2
      (Or.inr ⟨[.key "data", .key "items", .index 1, .key "name"],
        [.key "data", .key "items"], .index 1, [.key "name"],
        .arr [.obj [("name", .str "Alice")]], by decide, rfl, rfl, rfl⟩),
    by decide⟩

/-! ## C3: equals -/

theorem deepEquals_kind (a b : JsonValue) (h : deepEquals a b = true) : a.kind = b.kind := by
  cases a <;> cases b <;> simp_all [deepEquals, JsonValue.kind]

theorem deepEqualsList_iff (xs ys : List JsonValue) :
    deepEqualsList xs ys = true ↔ List.Forall₂ (fun x y => deepEquals x y = true) xs ys := by
  induction xs generalizing ys with
  | nil => cases ys <;> simp [deepEqualsList]
  | cons x xs ih => cases ys <;> simp [deepEqualsList, ih]

theorem deepEqualsFields_iff (fs gs : List (String × JsonValue)) :
    deepEqualsFields fs gs = true ↔
      ∀ kv ∈ fs, ∃ w, lookupField kv.1 gs = some w ∧ deepEquals kv.2 w = true := by
  induction fs with
  | nil => simp [deepEqualsFields]
  | cons kv fs ih =>
      obtain ⟨k, v⟩ := kv
      simp only [deepEqualsFields, Bool.and_eq_true, ih, List.mem_cons, forall_eq_or_imp]
      cases lookupField k gs <;> simp

theorem lookupField_mem_keys (k : String) (gs : List (String × JsonValue)) (w : JsonValue)
    (h : lookupField k gs = some w) : k ∈ objectKeys gs := by
  induction gs with
  | nil => simp [lookupField] at h
  | cons kv gs ih =>
      obtain ⟨k', v⟩ := kv
      by_cases hk : k' = k
      · simp [objectKeys, hk]
      · simp only [lookupField, hk, if_false] at h
        have := ih h
        simp only [objectKeys, List.map_cons, List.mem_cons]
        exact Or.inr this

theorem deepEquals_obj_iff (fs gs : List (String × JsonValue)) :
    deepEquals (.obj fs) (.obj gs) = true ↔
      fs.length = gs.length ∧
        ∀ kv ∈ fs, ∃ w, lookupField kv.1 gs = some w ∧ deepEquals kv.2 w = true := by
  simp [deepEquals, deepEqualsFields_iff]

theorem deepEquals_obj_keys (fs gs : List (String × JsonValue))
    (hf : (objectKeys fs).Nodup) (h : deepEquals (.obj fs) (.obj gs) = true) (k : String) :
    k ∈ objectKeys fs ↔ k ∈ objectKeys gs := by
  obtain ⟨hlen, hall⟩ := (deepEquals_obj_iff fs gs).1 h
  have hsub : objectKeys fs ⊆ objectKeys gs := by
    intro x hx
    simp only [objectKeys, List.mem_map] at hx
    obtain ⟨kv, hkv, rfl⟩ := hx
    obtain ⟨w, hw, -⟩ := hall kv hkv
    exact lookupField_mem_keys _ _ _ hw
  have hperm : (objectKeys fs).Perm (objectKeys gs) :=
    (List.subperm_of_subset hf hsub).perm_of_length_le (by simp [objectKeys, hlen])
  exact hperm.mem_iff

/-- C3. An equals assertion passes exactly when its path resolves and the
resolved value deep-equals the expected value.  Deep equality is
type-sensitive (values of different JSON types never compare equal, so the
string "1" is not the number 1 while the number 1 is), arrays compare position
by position, and objects compare by key set and by the value under each
key. -/
theorem equals_pass_iff (response : JsonValue) (path : String) (expected : JsonValue) :
    ((evalAssertion response { path := path, operator := .equals, value := expected }).pass = true ↔
      (resolve response path).found = true ∧
        ∃ x, (resolve response path).value = some x ∧ deepEquals x expected = true) ∧
    (∀ a b, deepEquals a b = true → a.kind = b.kind) ∧
    (deepEquals (.str "1") (.num 1) = false ∧ deepEquals (.num 1) (.num 1) = true) ∧
    (∀ xs ys, deepEquals (.arr xs) (.arr ys) = true ↔
      List.Forall₂ (fun x y => deepEquals x y = true) xs ys) ∧
    (∀ fs gs, deepEquals (.obj fs) (.obj gs) = true ↔
      fs.length = gs.length ∧
        ∀ kv ∈ fs, ∃ w, lookupField kv.1 gs = some w ∧ deepEquals kv.2 w = true) ∧
    (∀ fs gs, (objectKeys fs).Nodup → deepEquals (.obj fs) (.obj gs) = true →
      ∀ k, k ∈ objectKeys fs ↔ k ∈ objectKeys gs) := by
  refine ⟨?_, deepEquals_kind, ⟨by decide, by decide⟩, ?_, deepEquals_obj_iff, deepEquals_obj_keys⟩
  · rcases resolve_shape response path with ⟨hf, w, hw⟩ | ⟨hf, hw⟩
    · by_cases hd : deepEquals w expected = true
      · simp [evalAssertion, verdict, hf, hw, hd]
      · simp [evalAssertion, verdict, hf, hw, hd]
    · simp [evalAssertion, verdict, hf, hw]
  · intro xs ys
    simp [deepEquals, deepEqualsList_iff]

/-- Witness for C3: the spec's scenario, `data.items[0].name` equals "Alice",
and two objects that list the same members in different order. -/
theorem equals_pass_iff_witness :
    (evalAssertion Sample.aliceBody
        { path := "data.items[0].name", operator := .equals, value := .str "Alice" }).pass = true ∧
      ∀ k, k ∈ objectKeys [("a", JsonValue.num 1), ("b", JsonValue.null)] ↔
        k ∈ objectKeys [("b", JsonValue.null), ("a", JsonValue.num 1)] :=
  ⟨((equals_pass_iff Sample.aliceBody "data.items[0].name" (.str "Alice")).1).2
      ⟨by decide, .str "Alice", rfl, by decide⟩,
    (equals_pass_iff Sample.aliceBody "" .null).2.2.2.2.2
      [("a", .num 1), ("b", .null)] [("b", .null), ("a", .num 1)] (by decide) (by decide)⟩

/-! ## C4: contains -/

theorem startsWithChars_iff (needle hay : List Char) :
    startsWithChars needle hay = true ↔ needle <+: hay := by
  induction needle generalizing hay with
  | nil => exact ⟨fun _ => ⟨hay, rfl⟩, fun _ => rfl⟩
  | cons a as ih =>
      cases hay with
      | nil =>
          constructor
          · intro h
            simp [startsWithChars] at h
          · rintro ⟨t, ht⟩
            simp at ht
      | cons b bs =>
          simp only [startsWithChars, Bool.and_eq_true, beq_iff_eq, ih]
          constructor
          · rintro ⟨rfl, t, ht⟩
            exact ⟨t, by simp [ht]⟩
          · rintro ⟨t, ht⟩
            simp only [List.cons_append, List.cons.injEq] at ht
            exact ⟨ht.1, t, ht.2⟩

theorem occursInChars_iff (needle hay : List Char) :
    occursInChars needle hay = true ↔ needle <:+: hay := by
  induction hay with
  | nil =>
      simp only [occursInChars, startsWithChars_iff]
      constructor
      · rintro ⟨t, ht⟩
        exact ⟨[], t, by simpa using ht⟩
      · rintro ⟨s, t, ht⟩
        simp only [List.append_eq_nil] at ht
        exact ⟨[], by simp [ht.1.2]⟩
  | cons b bs ih =>
      simp only [occursInChars, Bool.or_eq_true, startsWithChars_iff, ih]
      constructor
      · rintro (⟨t, ht⟩ | ⟨s, t, ht⟩)
        · exact ⟨[], t, by simpa using ht⟩
        · exact ⟨b :: s, t, by simp [← ht]⟩
      · rintro ⟨s, t, ht⟩
        cases s with
        | nil => exact Or.inl ⟨t, by simpa using ht⟩
        | cons c s =>
            simp only [List.cons_append, List.cons.injEq] at ht
            exact Or.inr ⟨s, t, by simpa using ht.2⟩

/-- C4. For a contains assertion whose path resolves: on a resolved string the
assertion passes exactly when the expected value is a string that occurs in it
as a substring, and an expected value that is no string fails with the reason
"type mismatch"; on a resolved array it passes exactly when some element
deep-equals the expected value. -/
theorem contains_pass_iff (response : JsonValue) (path : String) (expected x : JsonValue)
    (h : (resolve response path).value = some x) :
    (∀ s, x = .str s →
      ((evalAssertion response { path := path, operator := .contains, value := expected }).pass
          = true ↔ ∃ t, expected = .str t ∧ t.data <:+: s.data) ∧
      ((∀ t, expected ≠ .str t) →
        (evalAssertion response { path := path, operator := .contains, value := expected }).pass
            = false ∧
          (evalAssertion response { path := path, operator := .contains, value := expected }).reason
            = some "type mismatch")) ∧
    (∀ xs, x = .arr xs →
      ((evalAssertion response { path := path, operator := .contains, value := expected }).pass
          = true ↔ ∃ e ∈ xs, deepEquals e expected = true)) := by
  constructor
  · rintro s rfl
    constructor
    · cases expected with
      | str t =>
          by_cases ht : occursInChars t.data s.data = true
          · simp [evalAssertion, verdict, h, containsVerdict, isSubstring, ht,
              (occursInChars_iff t.data s.data).1 ht]
          · have hn : ¬ t.data <:+: s.data := fun hi => ht ((occursInChars_iff _ _).2 hi)
            simp [evalAssertion, verdict, h, containsVerdict, isSubstring, ht, hn]
      | null => simp [evalAssertion, verdict, h, containsVerdict]
      | bool b => simp [evalAssertion, verdict, h, containsVerdict]
      | num n => simp [evalAssertion, verdict, h, containsVerdict]
      | arr ys => simp [evalAssertion, verdict, h, containsVerdict]
      | obj fs => simp [evalAssertion, verdict, h, containsVerdict]
    · intro hne
      cases expected with
      | str t => exact absurd rfl (hne t)
      | null => simp [evalAssertion, verdict, h, containsVerdict]
      | bool b => simp [evalAssertion, verdict, h, containsVerdict]
      | num n => simp [evalAssertion, verdict, h, containsVerdict]
      | arr ys => simp [evalAssertion, verdict, h, containsVerdict]
      | obj fs => simp [evalAssertion, verdict, h, containsVerdict]
  · rintro xs rfl
    by_cases hx : (xs.any fun e => deepEquals e expected) = true
    · have hx' := hx
      rw [List.any_eq_true] at hx'
      simp only [evalAssertion, verdict, h, containsVerdict, hx, if_true, true_iff]
      exact hx'
    · have hx' := hx
      rw [List.any_eq_true] at hx'
      have hp : (evalAssertion response
          { path := path, operator := .contains, value := expected }).pass = false := by
        simp [evalAssertion, verdict, h, containsVerdict, hx]
      rw [hp]
      simp only [Bool.false_eq_true, false_iff]
      exact hx'

/-- Witness for C4: the array `[1,2,3]` contains 2, the string "hello world"
contains "wor", and a number looked for in a string is a type mismatch. -/
theorem contains_pass_iff_witness :
    (evalAssertion (.arr [.num 1, .num 2, .num 3])
        { path := "", operator := .contains, value := .num 2 }).pass = true ∧
      (evalAssertion (.str "hello world")
        { path := "", operator := .contains, value := .str "wor" }).pass = true ∧
      (evalAssertion (.str "hello world")
        { path := "", operator := .contains, value := .num 2 }).reason = some "type mismatch" :=
  ⟨((contains_pass_iff (.arr [.num 1, .num 2, .num 3]) "" (.num 2)
        (.arr [.num 1, .num 2, .num 3]) rfl).2 [.num 1, .num 2, .num 3] rfl).2
      ⟨.num 2, by simp, by decide⟩,
    (((contains_pass_iff (.str "hello world") "" (.str "wor") (.str "hello world") rfl).1
        "hello world" rfl).1).2 ⟨"wor", rfl, "hello ".data, "ld".data, rfl⟩,
    ((((contains_pass_iff (.str "hello world") "" (.num 2) (.str "hello world") rfl).1
        "hello world" rfl).2) (fun t ht => by cases ht)).2⟩

/-! ## C5: greaterThan and lessThan -/

theorem compareVerdict_pass_iff (greater : Bool) (x expected : JsonValue) :
    (compareVerdict greater x expected).1 = true ↔
      ∃ a b, x = .num a ∧ expected = .num b ∧ (if greater = true then b < a else a < b) := by
  cases x <;> cases expected <;> cases greater <;>
    simp [compareVerdict] <;> split <;> simp_all

theorem compareVerdict_mismatch (greater : Bool) (x expected : JsonValue)
    (h : (∀ a, x ≠ .num a) ∨ (∀ b, expected ≠ .num b)) :
    (compareVerdict greater x expected).1 = false ∧
      (compareVerdict greater x expected).2 = some "type mismatch" := by
  cases x <;> cases expected <;> simp_all [compareVerdict]

/-- C5. A greaterThan (lessThan) assertion always evaluates to an entry: it
passes exactly when the path resolves, the resolved value and the expected
value are both numbers, and the resolved number is greater (less) than the
expected one; when either side is not a number, or the path does not resolve,
it is a failing entry that carries a reason. -/
theorem compare_pass_iff (response : JsonValue) (path : String) (expected : JsonValue) :
    ((evalAssertion response { path := path, operator := .greaterThan, value := expected }).pass
        = true ↔
      (resolve response path).found = true ∧
        ∃ a b, (resolve response path).value = some (.num a) ∧ expected = .num b ∧ b < a) ∧
    ((evalAssertion response { path := path, operator := .lessThan, value := expected }).pass
        = true ↔
      (resolve response path).found = true ∧
        ∃ a b, (resolve response path).value = some (.num a) ∧ expected = .num b ∧ a < b) ∧
    (((∀ a, (resolve response path).value ≠ some (.num a)) ∨ (∀ b, expected ≠ .num b)) →
      (evalAssertion response { path := path, operator := .greaterThan, value := expected }).pass
          = false ∧
        (∃ why, (evalAssertion response
            { path := path, operator := .greaterThan, value := expected }).reason = some why) ∧
        (evalAssertion response { path := path, operator := .lessThan, value := expected }).pass
          = false ∧
        (∃ why, (evalAssertion response
            { path := path, operator := .lessThan, value := expected }).reason = some why)) := by
  rcases resolve_shape response path with ⟨hf, w, hw⟩ | ⟨hf, hw⟩
  · refine ⟨?_, ?_, ?_⟩
    · simp [evalAssertion, verdict, hf, hw, compareVerdict_pass_iff]
    · simp [evalAssertion, verdict, hf, hw, compareVerdict_pass_iff]
    · intro h
      have h' : (∀ a, w ≠ .num a) ∨ (∀ b, expected ≠ .num b) := by
        rcases h with h | h
        · left
          intro a ha
          exact h a (by rw [hw, ha])
        · exact Or.inr h
      have hg := compareVerdict_mismatch true w expected h'
      have hl := compareVerdict_mismatch false w expected h'
      simp [evalAssertion, verdict, hw, hg.1, hg.2, hl.1, hl.2]
  · simp [evalAssertion, verdict, hf, hw]

/-- Witness for C5: 5 is greater than 3, and a string compared with a number
fails with a reason. -/
theorem compare_pass_iff_witness :
    (evalAssertion (.num 5) { path := "", operator := .greaterThan, value := .num 3 }).pass
        = true ∧
      (evalAssertion (.str "five") { path := "", operator := .lessThan, value := .num 3 }).pass
        = false :=
  ⟨((compare_pass_iff (.num 5) "" (.num 3)).1).2 ⟨rfl, 5, 3, rfl, rfl, by norm_num⟩,
    ((compare_pass_iff (.str "five") "" (.num 3)).2.2
      (Or.inl (fun a ha => by cases ha))).2.2.1⟩

/-! ## C6: the per-assertion report -/

theorem evalAssertion_assertion (response : JsonValue) (a : Assertion) :
    (evalAssertion response a).assertion = a := rfl

/-- C6. evaluate returns one entry per assertion, in the order of the list and
each the evaluation of its own assertion whatever the entries before it were,
and overallPass is the conjunction of the pass flags of all entries. -/
theorem evaluate_reports_all (response : JsonValue) (assertions : List Assertion) :
    (evaluate response assertions).perAssertion.length = assertions.length ∧
    (evaluate response assertions).perAssertion.map (fun e => e.assertion) = assertions ∧
    (∀ i a, assertions.get? i = some a →
      (evaluate response assertions).perAssertion.get? i = some (evalAssertion response a)) ∧
    (evaluate response assertions).overallPass =
      ((evaluate response assertions).perAssertion.map (fun e => e.pass)).foldr and true ∧
    ((evaluate response assertions).overallPass = true ↔
      ∀ e ∈ (evaluate response assertions).perAssertion, e.pass = true) := by
  refine ⟨by simp [evaluate], ?_, ?_, ?_, by simp [evaluate, List.all_eq_true]⟩
  · simp only [evaluate, List.map_map]
    induction assertions with
    | nil => rfl
    | cons a rest ih => simp [evalAssertion_assertion, ih]
  · intro i a h
    simp [evaluate, List.get?_eq_getElem?, List.getElem?_map] at h ⊢
    simp [h]
  · simp only [evaluate]
    induction assertions with
    | nil => rfl
    | cons a rest ih => simp [List.all_cons, ih]

/-- Witness for C6: with a failing first assertion the second entry is still
the evaluation of the second assertion. -/
theorem evaluate_reports_all_witness :
    (evaluate Sample.aliceBody
        [{ path := "missing", operator := .exists, value := .null },
         { path := "data", operator := .exists, value := .null }]).perAssertion.get? 1 =
      some (evalAssertion Sample.aliceBody { path := "data", operator := .exists, value := .null }) :=
  (evaluate_reports_all Sample.aliceBody
      [{ path := "missing", operator := .exists, value := .null },
       { path := "data", operator := .exists, value := .null }]).2.2.1 1
    { path := "data", operator := .exists, value := .null } rfl

/-! ## C7: merging endpoint defaults and test overrides -/

theorem hasKey_false_iff (k : String) (entries : List Entry) :
    hasKey k entries = false ↔ lookupKey k entries = none := by
  induction entries with
  | nil => simp [hasKey, lookupKey]
  | cons e rest ih =>
      obtain ⟨k', v⟩ := e
      by_cases hk : k' = k
      · simp [hasKey, lookupKey, hk]
      · simp only [hasKey, List.any_cons, lookupKey, hk, if_false] at ih ⊢
        simp [hk, ih]

theorem lookupKey_append (k : String) (xs ys : List Entry) :
    lookupKey k (xs ++ ys) =
      match lookupKey k xs with
      | some v => some v
      | none => lookupKey k ys := by
  induction xs with
  | nil => rfl
  | cons e rest ih =>
      obtain ⟨k', v⟩ := e
      by_cases hk : k' = k
      · simp [lookupKey, hk]
      · simpa [lookupKey, hk] using ih

theorem lookupKey_filter (k : String) (keep : String → Bool) (xs : List Entry) :
    lookupKey k (xs.filter (fun e => keep e.1)) = if keep k = true then lookupKey k xs else none := by
  induction xs with
  | nil => simp [lookupKey]
  | cons e rest ih =>
      obtain ⟨k', v⟩ := e
      by_cases hkeep : keep k' = true
      · by_cases hk : k' = k
        · subst hk
          simp [List.filter_cons, hkeep, lookupKey]
        · simp [List.filter_cons, hkeep, lookupKey, hk, ih]
      · by_cases hk : k' = k
        · subst hk
          simp [List.filter_cons, hkeep, lookupKey, ih]
        · simp [List.filter_cons, hkeep, lookupKey, hk, ih]

theorem lookupKey_mergeByKey (k : String) (defaults overrides : List Entry) :
    lookupKey k (mergeByKey defaults overrides) =
      match lookupKey k overrides with
      | some v => some v
      | none => lookupKey k defaults := by
  unfold mergeByKey
  rw [lookupKey_append, lookupKey_filter k (fun key => !hasKey key overrides)]
  cases h : lookupKey k overrides with
  | none =>
      have := (hasKey_false_iff k overrides).2 h
      simp [this]
      cases lookupKey k defaults <;> rfl
  | some v =>
      have : hasKey k overrides = true := by
        cases hh : hasKey k overrides with
        | true => rfl
        | false => rw [(hasKey_false_iff k overrides).1 hh] at h; cases h
      simp [this]

/-- C7. In the request built from an endpoint and a test, the value of a header
key (and of a query-parameter key) is the test's value when the test has an
entry with that key and the endpoint's default otherwise, a key that neither
has is absent, and the body is the test's requestBody when the test has one
and the endpoint's default body otherwise. -/
theorem build_merges (endpoint : EndpointDefinition) (test : TestDefinition)
    (projectBaseUrl k : String) :
    (∀ v, lookupKey k test.requestHeaders = some v →
      lookupKey k (build endpoint test projectBaseUrl).headers = some v) ∧
    (hasKey k test.requestHeaders = false →
      lookupKey k (build endpoint test projectBaseUrl).headers = lookupKey k endpoint.headers) ∧
    (hasKey k test.requestHeaders = false → hasKey k endpoint.headers = false →
      hasKey k (build endpoint test projectBaseUrl).headers = false) ∧
    (∀ v, lookupKey k test.requestParams = some v →
      lookupKey k (build endpoint test projectBaseUrl).queryParams = some v) ∧
    (hasKey k test.requestParams = false →
      lookupKey k (build endpoint test projectBaseUrl).queryParams
        = lookupKey k endpoint.queryParams) ∧
    (hasKey k test.requestParams = false → hasKey k endpoint.queryParams = false →
      hasKey k (build endpoint test projectBaseUrl).queryParams = false) ∧
    (∀ b, test.requestBody = some b → (build endpoint test projectBaseUrl).body = some b) ∧
    (test.requestBody = none →
      (build endpoint test projectBaseUrl).body = endpoint.requestBody) := by
  have hh : ∀ d o : List Entry, (∀ v, lookupKey k o = some v → lookupKey k (mergeByKey d o) = some v) ∧
      (hasKey k o = false → lookupKey k (mergeByKey d o) = lookupKey k d) ∧
      (hasKey k o = false → hasKey k d = false → hasKey k (mergeByKey d o) = false) := by
    intro d o
    refine ⟨?_, ?_, ?_⟩
    · intro v hv
      rw [lookupKey_mergeByKey, hv]
    · intro ho
      rw [lookupKey_mergeByKey, (hasKey_false_iff k o).1 ho]
    · intro ho hd
      rw [hasKey_false_iff] at ho hd ⊢
      rw [lookupKey_mergeByKey, ho, hd]
  obtain ⟨h1, h2, h3⟩ := hh endpoint.headers test.requestHeaders
  obtain ⟨p1, p2, p3⟩ := hh endpoint.queryParams test.requestParams
  refine ⟨h1, h2, h3, p1, p2, p3, ?_, ?_⟩
  · intro b hb
    simp [build, hb]
  · intro hb
    simp [build, hb]

/-- Witness for C7: the test's `Accept` replaces the endpoint's, `X-Env` is
inherited, and the endpoint's body is used when the test has none. -/
theorem build_merges_witness :
    lookupKey "Accept" (build Sample.usersEndpoint Sample.usersTest "http://localhost").headers
        = some "application/json" ∧
      lookupKey "X-Env" (build Sample.usersEndpoint Sample.usersTest "http://localhost").headers
        = lookupKey "X-Env" Sample.usersEndpoint.headers ∧
      (build Sample.usersEndpoint Sample.usersTest "http://localhost").body
        = Sample.usersEndpoint.requestBody :=
  ⟨(build_merges Sample.usersEndpoint Sample.usersTest "http://localhost" "Accept").1
      "application/json" (by decide),
    (build_merges Sample.usersEndpoint Sample.usersTest "http://localhost" "X-Env").2.1
      (by decide),
    (build_merges Sample.usersEndpoint Sample.usersTest "http://localhost" "X-Env").2.2.2.2.2.2.2
      rfl⟩

/-! ## C8 - C10: the Test schema on assertions and lastRun -/

theorem operator_enum_iff (s : String) :
    (["equals", "contains", "exists", "notExists", "greaterThan", "lessThan"].contains s) = true ↔
      ∃ op : Operator, s = op.name := by
  constructor
  · intro h
    simp only [List.contains_iff_exists_mem_beq, beq_iff_eq, List.mem_cons,
      List.mem_singleton, List.not_mem_nil, or_false, exists_eq_right'] at h
    rcases h with h | h | h | h | h | h
    · exact ⟨.equals, h⟩
    · exact ⟨.contains, h⟩
    · exact ⟨.exists, h⟩
    · exact ⟨.notExists, h⟩
    · exact ⟨.greaterThan, h⟩
    · exact ⟨.lessThan, h⟩
  · rintro ⟨op, rfl⟩
    cases op <;> decide

theorem validateAssertion_eq (d : AssertionDoc) :
    validateAssertion d = TestSchema.assertionOperator.acceptsString d.operator := by
  obtain ⟨p, o, v⟩ := d
  cases p <;>
    simp [validateAssertion, TestSchema.assertions, TestSchema.assertionOperator,
      PathSpec.acceptsString, PathSpec.acceptsPresence]

/-- C8, as the code has it. The Test schema accepts an assertion exactly when
its operator is absent or one of equals, contains, exists, notExists,
greaterThan, lessThan; an assertion with any other operator is rejected. -/
theorem validateAssertion_iff (d : AssertionDoc) :
    (validateAssertion d = true ↔ d.operator = none ∨ ∃ op : Operator, d.operator = some op.name) ∧
    (∀ s, (∀ op : Operator, s ≠ op.name) →
      validateAssertion { d with operator := some s } = false) := by
  constructor
  · rw [validateAssertion_eq]
    cases h : d.operator with
    | none => simp [PathSpec.acceptsString, TestSchema.assertionOperator]
    | some s =>
        simp only [PathSpec.acceptsString, TestSchema.assertionOperator, Bool.not_false,
          Bool.true_or, Bool.true_and, operator_enum_iff, reduceCtorEq, false_or,
          Option.some.injEq]
  · intro s hs
    rw [validateAssertion_eq]
    cases hc : TestSchema.assertionOperator.acceptsString (some s) with
    | false => rfl
    | true =>
        simp only [PathSpec.acceptsString, TestSchema.assertionOperator, Bool.not_false,
          Bool.true_or, Bool.true_and, operator_enum_iff] at hc
        obtain ⟨op, rfl⟩ := hc
        exact absurd rfl (hs op)

/-- Witness for C8: the operator `matches` is rejected. -/
theorem validateAssertion_iff_witness :
    validateAssertion { path := some "data.id", operator := some "matches", value := none }
      = false :=
  (validateAssertion_iff { path := some "data.id", operator := none, value := none }).2
    "matches" (fun op => by cases op <;> decide)

/-- C8 as stated fails: an assertion without an operator is accepted by the
Test schema although its operator is none of the six values. -/
theorem validateAssertion_operator_absent :
    ¬ (∀ d : AssertionDoc,
        validateAssertion d = true ↔ ∃ op : Operator, d.operator = some op.name) := by
  intro h
  obtain ⟨op, hop⟩ :=
    (h { path := some "data.id", operator := none, value := some (.num 1) }).1 (by decide)
  cases hop

/-- C9, as the code has it. Of the members supplied for `lastRun` exactly those
among timestamp, status, responseTime, responseStatus, responseBody, error are
persisted, so a member `responseTimeMs` never is; a persisted assertion has
the `_id` Mongoose gives every element of a document array and, of the members
supplied, exactly those among path, operator, value. -/
theorem persisted_field_sets (supplied : List String) :
    (∀ k, k ∈ storedNested TestSchema.lastRun supplied ↔
      k ∈ supplied ∧
        k ∈ ["timestamp", "status", "responseTime", "responseStatus", "responseBody",
          "error"]) ∧
    "responseTimeMs" ∉ storedNested TestSchema.lastRun supplied ∧
    (∀ k, k ∈ storedElement TestSchema.assertions supplied ↔
      k = "_id" ∨ (k ∈ supplied ∧ k ∈ ["path", "operator", "value"])) ∧
    fieldNames TestSchema.lastRun =
      ["timestamp", "status", "responseTime", "responseStatus", "responseBody", "error"] ∧
    fieldNames TestSchema.assertionElement = ["_id", "path", "operator", "value"] ∧
    storedNested TestSchema.lastRun
        ["timestamp", "status", "responseTime", "responseStatus", "responseBody", "error"] =
      ["timestamp", "status", "responseTime", "responseStatus", "responseBody", "error"] ∧
    storedElement TestSchema.assertions ["path", "operator", "value"] =
      ["_id", "path", "operator", "value"] := by
  have hlast : ∀ k, k ∈ storedNested TestSchema.lastRun supplied ↔
      k ∈ supplied ∧
        k ∈ ["timestamp", "status", "responseTime", "responseStatus", "responseBody",
          "error"] := by
    intro k
    have hn : fieldNames TestSchema.lastRun =
        ["timestamp", "status", "responseTime", "responseStatus", "responseBody", "error"] := by
      decide
    simp only [storedNested, List.mem_filter, hn, List.contains_iff_exists_mem_beq, beq_iff_eq,
      exists_eq_right']
  refine ⟨hlast, ?_, ?_, by decide, by decide, by decide, by decide⟩
  · intro h
    have := ((hlast "responseTimeMs").1 h).2
    revert this
    decide
  · intro k
    have hn : fieldNames TestSchema.assertions = ["path", "operator", "value"] := by decide
    simp only [storedElement, storedNested, List.mem_cons, List.mem_filter, hn,
      List.contains_iff_exists_mem_beq, beq_iff_eq, exists_eq_right', bne_iff_ne, ne_eq,
      decide_not, Bool.not_eq_true', decide_eq_false_iff_not]
    constructor
    · rintro (h | ⟨⟨h1, -⟩, h2⟩)
      · exact Or.inl h
      · exact Or.inr ⟨h1, h2⟩
    · rintro (h | ⟨h1, h2⟩)
      · exact Or.inl h
      · by_cases hid : k = "_id"
        · exact Or.inl hid
        · exact Or.inr ⟨⟨h1, hid⟩, h2⟩

/-- C9 as stated fails: of a snapshot supplied with the spec's field names the
member `responseTimeMs` is not persisted, and an assertion supplied with path,
operator and value is persisted with a fourth field, `_id`. -/
theorem persisted_shape_not_spec :
    storedNested TestSchema.lastRun
        ["timestamp", "status", "responseTimeMs", "responseStatus", "responseBody", "error"] =
      ["timestamp", "status", "responseStatus", "responseBody", "error"] ∧
    "responseTimeMs" ∉ fieldNames TestSchema.lastRun ∧
    storedElement TestSchema.assertions ["path", "operator", "value"] ≠
      ["path", "operator", "value"] ∧
    "_id" ∈ storedElement TestSchema.assertions ["path", "operator", "value"] := by
  refine ⟨by decide, by decide, by decide, by decide⟩

theorem validateLastRun_eq (d : LastRunDoc) :
    validateLastRun d = TestSchema.lastRunStatus.acceptsString d.status := by
  obtain ⟨ts, st, rt, rs, rb, er⟩ := d
  cases er <;>
    simp [validateLastRun, TestSchema.lastRun, TestSchema.lastRunStatus, TestSchema.lastRunError,
      PathSpec.acceptsString, PathSpec.acceptsPresence]

/-- C10, as the code has it. Every RunResult that record builds has an error
string exactly when its status is error; the Test schema validates the status
and the error of a stored snapshot independently, so whether it accepts a
snapshot does not depend on the error path. -/
theorem error_iff_status_error (test : TestDefinition) (httpOutcome : HttpOutcome)
    (normalizedResponse : Option JsonValue) (assertionOutcome : Option AssertionOutcome)
    (elapsedMs now : Nat) (d : LastRunDoc) (e : Option String) :
    ((record test httpOutcome normalizedResponse assertionOutcome elapsedMs now).error.isSome
        = true ↔
      (record test httpOutcome normalizedResponse assertionOutcome elapsedMs now).status
        = .error) ∧
    validateLastRun { d with error := e } = validateLastRun d := by
  constructor
  · cases httpOutcome with
    | failure f => simp [record]
    | response r =>
        cases normalizedResponse with
        | none => simp [record]
        | some v =>
            cases assertionOutcome with
            | none => simp [record]
            | some o =>
                by_cases h : (statusMatches test.expectedStatus r.status && o.overallPass) = true
                · simp [record, h]
                · simp [record, h]
  · rw [validateLastRun_eq, validateLastRun_eq]

/-- C10 as stated fails: the Test schema accepts a snapshot with status passed
and an error string, and one with status error and no error string. -/
theorem lastRun_error_unconstrained :
    validateLastRun ⟨some 0, some "passed", some 12, some 200, none, some "boom"⟩ = true ∧
      validateLastRun ⟨some 0, some "error", none, none, none, none⟩ = true := by
  constructor <;> decide

/-! ## C11 - C15: what the schemas accept -/

theorem status_enum_iff (s : String) :
    (["passed", "failed", "error"].contains s) = true ↔
      s = "passed" ∨ s = "failed" ∨ s = "error" := by
  simp

/-- C11. Every `lastRun.status` value the Test schema accepts is one of passed,
failed, error: a snapshot with any other status string fails validation, and
each of the three is accepted. -/
theorem lastRun_status_closed (d : LastRunDoc) :
    (∀ s, d.status = some s → validateLastRun d = true →
      s = "passed" ∨ s = "failed" ∨ s = "error") ∧
    (∀ s, s ≠ "passed" → s ≠ "failed" → s ≠ "error" →
      validateLastRun { d with status := some s } = false) ∧
    (∀ s, s = "passed" ∨ s = "failed" ∨ s = "error" →
      validateLastRun { d with status := some s } = true) := by
  refine ⟨?_, ?_, ?_⟩
  · intro s hs hv
    rw [validateLastRun_eq, hs] at hv
    simpa [PathSpec.acceptsString, TestSchema.lastRunStatus] using hv
  · intro s h1 h2 h3
    rw [validateLastRun_eq]
    simp [PathSpec.acceptsString, TestSchema.lastRunStatus, h1, h2, h3]
  · intro s hs
    rw [validateLastRun_eq]
    simpa [PathSpec.acceptsString, TestSchema.lastRunStatus] using hs

/-- Witness for C11: the status `skipped` is rejected. -/
theorem lastRun_status_closed_witness :
    validateLastRun ⟨some 0, some "skipped", none, none, none, none⟩ = false :=
  (lastRun_status_closed ⟨some 0, none, none, none, none, none⟩).2.1 "skipped"
    (by decide) (by decide) (by decide)

theorem method_enum_iff (s : String) :
    (["GET", "POST", "PUT", "DELETE", "PATCH", "OPTIONS", "HEAD"].contains s) = true ↔
      s ∈ ["GET", "POST", "PUT", "DELETE", "PATCH", "OPTIONS", "HEAD"] := by
  simp

/-- C12. An Endpoint document is accepted only if its method is one of GET,
POST, PUT, DELETE, PATCH, OPTIONS, HEAD: a missing method and any other method
fail validation.  The methods the Add Endpoint form offers are exactly the
enum of the schema, and its default is GET. -/
theorem endpoint_method_closed (d : EndpointDoc) :
    (validateEndpoint d = true →
      ∃ m ∈ ["GET", "POST", "PUT", "DELETE", "PATCH", "OPTIONS", "HEAD"], d.method = some m) ∧
    validateEndpoint { d with method := none } = false ∧
    (∀ s, s ∉ ["GET", "POST", "PUT", "DELETE", "PATCH", "OPTIONS", "HEAD"] →
      validateEndpoint { d with method := some s } = false) ∧
    EndpointSchema.method.enumValues = some addEndpointMethodOptions ∧
    addEndpointMethodOptions = ["GET", "POST", "PUT", "DELETE", "PATCH", "OPTIONS", "HEAD"] ∧
    addEndpointDefaultMethod = "GET" ∧
    addEndpointDefaultMethod ∈ addEndpointMethodOptions := by
  refine ⟨?_, ?_, ?_, rfl, rfl, rfl, by decide⟩
  · intro h
    simp only [validateEndpoint, Bool.and_eq_true] at h
    obtain ⟨-, hm⟩ := h
    cases hd : d.method with
    | none => simp [hd, PathSpec.acceptsString, EndpointSchema.method] at hm
    | some m =>
        rw [hd] at hm
        simp only [PathSpec.acceptsString, EndpointSchema.method, Bool.and_eq_true,
          method_enum_iff] at hm
        exact ⟨m, hm.2, rfl⟩
  · simp [validateEndpoint, PathSpec.acceptsString, EndpointSchema.method]
  · intro s hs
    have : (["GET", "POST", "PUT", "DELETE", "PATCH", "OPTIONS", "HEAD"].contains s) = false := by
      rw [← Bool.not_eq_true, method_enum_iff]
      exact hs
    simp only [validateEndpoint, PathSpec.acceptsString, EndpointSchema.method, this,
      Bool.and_false]

/-- Witness for C12: the sample endpoint is accepted with GET and rejected
with the method TRACE. -/
theorem endpoint_method_closed_witness :
    (∃ m ∈ ["GET", "POST", "PUT", "DELETE", "PATCH", "OPTIONS", "HEAD"],
        Sample.minimalEndpoint.method = some m) ∧
      validateEndpoint { Sample.minimalEndpoint with method := some "TRACE" } = false :=
  ⟨(endpoint_method_closed Sample.minimalEndpoint).1 (by decide),
    (endpoint_method_closed Sample.minimalEndpoint).2.2.1 "TRACE" (by decide)⟩

theorem lookupField_append (k : String) (xs ys : List (String × JsonValue)) :
    lookupField k (xs ++ ys) =
      match lookupField k xs with
      | some v => some v
      | none => lookupField k ys := by
  induction xs with
  | nil => rfl
  | cons e rest ih =>
      obtain ⟨k', v⟩ := e
      by_cases hk : k' = k
      · simp [lookupField, hk]
      · simpa [lookupField, hk] using ih

theorem lookupField_filter_ne (k : String) (xs : List (String × JsonValue)) :
    lookupField k (xs.filter (fun kv => kv.1 != k)) = none := by
  induction xs with
  | nil => rfl
  | cons e rest ih =>
      obtain ⟨k', v⟩ := e
      by_cases hk : k' = k
      · simp [List.filter_cons, hk, ih]
      · simp [List.filter_cons, hk, lookupField, ih]

/-- C13. A test belongs to exactly one endpoint: the Test schema rejects a
test without endpoint reference, so an accepted test has one; the `endpoint`
path is declared as a single required ObjectId, not as a list; and the payload
the endpoint page submits for a new test carries the page's endpointId as its
`endpoint`, whatever the form data holds. -/
theorem test_has_one_endpoint (d : TestDoc) (endpointId : String)
    (data : List (String × JsonValue)) :
    validateTest { d with endpoint := none } = false ∧
    (validateTest d = true → ∃ e, d.endpoint = some e) ∧
    (TestSchema.endpoint ∈ TestSchema.paths ∧ TestSchema.endpoint.type = .ObjectId ∧
      TestSchema.endpoint.required = true) ∧
    lookupField "endpoint" (onSubmitNewTest endpointId data) = some (.str endpointId) := by
  refine ⟨?_, ?_, ⟨by decide, rfl, rfl⟩, ?_⟩
  · simp [validateTest, PathSpec.acceptsPresence, TestSchema.endpoint]
  · intro h
    cases he : d.endpoint with
    | none => simp [validateTest, PathSpec.acceptsPresence, TestSchema.endpoint, he] at h
    | some e => exact ⟨e, rfl⟩
  · unfold onSubmitNewTest
    rw [lookupField_append, lookupField_filter_ne]
    simp [lookupField]

/-- Witness for C13: the sample test is accepted and has its endpoint. -/
theorem test_has_one_endpoint_witness : ∃ e, Sample.minimalTest.endpoint = some e :=
  (test_has_one_endpoint Sample.minimalTest "64b0000000000000000000e1" []).2.1 (by decide)

/-- C14. The Endpoint schema rejects an endpoint without project reference and
the Project schema rejects a project whose baseUrl is missing or empty, so when
an accepted endpoint refers to an accepted project, that project has a
non-empty baseUrl. -/
theorem endpoint_project_has_baseUrl (e : EndpointDoc) (p : ProjectDoc) :
    validateEndpoint { e with project := none } = false ∧
    validateProject { p with baseUrl := none } = false ∧
    validateProject { p with baseUrl := some "" } = false ∧
    (validateEndpoint e = true → validateProject p = true → e.project = some p.id →
      ∃ url, p.baseUrl = some url ∧ url ≠ "") := by
  refine ⟨?_, ?_, ?_, ?_⟩
  · simp [validateEndpoint, PathSpec.acceptsPresence, EndpointSchema.project]
  · simp [validateProject, PathSpec.acceptsString, ProjectSchema.baseUrl]
  · simp [validateProject, PathSpec.acceptsString, ProjectSchema.baseUrl]
  · intro _ hp _
    simp only [validateProject, Bool.and_eq_true] at hp
    obtain ⟨⟨⟨-, hb⟩, -⟩, -⟩ := hp
    cases hu : p.baseUrl with
    | none => simp [hu, PathSpec.acceptsString, ProjectSchema.baseUrl] at hb
    | some url =>
        rw [hu] at hb
        refine ⟨url, rfl, ?_⟩
        simpa [PathSpec.acceptsString, ProjectSchema.baseUrl] using hb

/-- Witness for C14: the sample endpoint refers to the sample project, which
has a baseUrl. -/
theorem endpoint_project_has_baseUrl_witness :
    ∃ url, Sample.demoProject.baseUrl = some url ∧ url ≠ "" :=
  (endpoint_project_has_baseUrl Sample.minimalEndpoint Sample.demoProject).2.2.2
    (by decide) (by decide) rfl

theorem validateTest_expectedStatus (d : TestDoc) (q : Option ℚ) :
    validateTest { d with expectedStatus := q } = validateTest d := by
  cases q <;> cases d.expectedStatus <;>
    simp [validateTest, PathSpec.acceptsPresence, TestSchema.expectedStatus]

/-- C15, as the code has it. The Test schema accepts a test with expectedStatus
absent, and expectedStatus is a number on which the schema puts no further
condition: whether a test is accepted does not depend on its expectedStatus,
be it absent, an integer or not an integer. -/
theorem expectedStatus_optional_number (d : TestDoc) :
    validateTest { d with expectedStatus := none } = validateTest d ∧
    (∀ q : ℚ, validateTest { d with expectedStatus := some q } = validateTest d) ∧
    validateTest Sample.minimalTest = true ∧
    TestSchema.expectedStatus.type = .Number ∧ TestSchema.expectedStatus.required = false :=
  ⟨validateTest_expectedStatus d none, fun q => validateTest_expectedStatus d (some q),
    by decide, rfl, rfl⟩

/-- C15 as stated fails: the Test schema accepts the expectedStatus 200.5,
which is not an integer. -/
theorem expectedStatus_not_integer :
    validateTest { Sample.minimalTest with expectedStatus := some (401 / 2) } = true ∧
      ¬ ∃ n : ℤ, ((401 / 2 : ℚ)) = n := by
  constructor
  · rw [validateTest_expectedStatus]
    decide
  · rintro ⟨n, hn⟩
    have h2 : (401 : ℚ) = 2 * (n : ℚ) := by linarith
    have h3 : (401 : ℤ) = 2 * n := by exact_mod_cast h2
    omega

/-! ## C16 - C20: the project routes -/

theorem someCollaborator_named (id : String) (cs : List Collaborator)
    (h : ∀ c ∈ cs, c.user ≠ none) :
    someCollaborator id cs = .ok (cs.any (fun c => c.user == some id)) := by
  induction cs with
  | nil => rfl
  | cons c rest ih =>
      have hc := h c (List.mem_cons_self _ _)
      have hr := ih (fun x hx => h x (List.mem_cons_of_mem _ hx))
      cases hu : c.user with
      | none => exact absurd hu hc
      | some u =>
          by_cases hid : u = id
          · simp [someCollaborator, toStringOf, hu, hid]
          · simp [someCollaborator, toStringOf, hu, hid, hr]

/-- C16, as the code has it. For a stored project that has an owner and whose
collaborator entries each name a user, `GET api/projects/:id` returns the
project exactly when the requester is the owner, or is the user of some
collaborator entry, or the project is public; otherwise it answers 401 'Not
authorized to access this project' and no project data. -/
theorem getProject_access (castId : String → Option String)
    (db : List ProjectDoc) (requester id owner : String)
    (p : ProjectDoc) (hfind : findById castId db id = .ok (some p)) (howner : p.user = some owner)
    (hnamed : ∀ c ∈ p.collaborators, c.user ≠ none) :
    (getProject castId db requester id = .project p ↔
      owner = requester ∨ (∃ c ∈ p.collaborators, c.user = some requester) ∨
        p.isPublic = true) ∧
    (¬ (owner = requester ∨ (∃ c ∈ p.collaborators, c.user = some requester) ∨
        p.isPublic = true) →
      getProject castId db requester id = .message 401 "Not authorized to access this project") := by
  have hany : (p.collaborators.any (fun c => c.user == some requester)) = true ↔
      ∃ c ∈ p.collaborators, c.user = some requester := by
    simp [List.any_eq_true]
  have hrun : getProject castId db requester id =
      if (!(owner == requester) && !(p.collaborators.any (fun c => c.user == some requester))
          && !p.isPublic) = true
      then .message 401 "Not authorized to access this project" else .project p := by
    have htry : getProjectTry castId db requester id = .ok
        (if (!(owner == requester) &&
            !(p.collaborators.any (fun c => c.user == some requester)) && !p.isPublic) = true
         then .message 401 "Not authorized to access this project" else .project p) := by
      simp only [getProjectTry, hfind, howner, toStringOf,
        someCollaborator_named requester p.collaborators hnamed]
      by_cases hc : (!(owner == requester) &&
          !(p.collaborators.any (fun c => c.user == some requester)) && !p.isPublic) = true
      · rw [if_pos hc, if_pos hc]
      · rw [if_neg hc, if_neg hc]
    simp only [getProject, htry]
  have hcond : (!(owner == requester) && !(p.collaborators.any (fun c => c.user == some requester))
      && !p.isPublic) = true ↔
      ¬ (owner = requester ∨ (∃ c ∈ p.collaborators, c.user = some requester) ∨
        p.isPublic = true) := by
    rw [← hany]
    simp only [Bool.and_eq_true, Bool.not_eq_true', beq_eq_false_iff_ne, ne_eq, not_or,
      Bool.not_eq_true, and_assoc]
  constructor
  · rw [hrun]
    by_cases hc : (!(owner == requester) &&
        !(p.collaborators.any (fun c => c.user == some requester)) && !p.isPublic) = true
    · rw [if_pos hc]
      have := hcond.1 hc
      simp [this]
    · rw [if_neg hc]
      have : ¬¬ (owner = requester ∨ (∃ c ∈ p.collaborators, c.user = some requester) ∨
          p.isPublic = true) := fun hn => hc (hcond.2 hn)
      simp [not_not.1 this]
  · intro hn
    rw [hrun, if_pos (hcond.2 hn)]

/-- Witness for C16: a stranger may read the public sample project. -/
theorem getProject_access_witness :
    getProject Sample.castHex24 [Sample.demoProject] "u3" Sample.projectId = .project Sample.demoProject :=
  ((getProject_access Sample.castHex24 [Sample.demoProject] "u3" Sample.projectId "u1" Sample.demoProject
      rfl rfl (by decide)).1).2 (Or.inr (Or.inr rfl))

/-- C16 as stated fails: a stored public project whose owner asks for it is
answered with 500 'Server error' when a collaborator entry names no user. -/
theorem getProject_dangling_collaborator :
    findById Sample.castHex24 [Sample.danglingProject] Sample.projectId = .ok (some Sample.danglingProject) ∧
      Sample.danglingProject.user = some "u1" ∧ Sample.danglingProject.isPublic = true ∧
      getProject Sample.castHex24 [Sample.danglingProject] "u1" Sample.projectId = .serverError := by
  refine ⟨rfl, rfl, rfl, by decide⟩

/-- C17, as the code has it. For an existing project with an owner and a
requester who is not that owner (a collaborator of any role or a user of a
public project included), PUT and DELETE `api/projects/:id` answer 401, and
POST `api/projects/:id/collaborators` answers 401 when its body passes the
route's validation and 400 with the validation errors when it does not; in
every case the stored projects are unchanged. -/
theorem non_owner_cannot_change (castId : String → Option String)
    (isEmail : String → Bool)
    (findUserByEmail : String → Option String) (db : List ProjectDoc)
    (requester id owner : String) (p : ProjectDoc) (body : ProjectBody)
    (cbody : CollaboratorBody) (now : Nat)
    (hfind : findById castId db id = .ok (some p)) (howner : p.user = some owner)
    (hne : owner ≠ requester) :
    updateProject castId db requester id body now
      = (.message 401 "Not authorized to update this project", db) ∧
    deleteProject castId db requester id
      = (.message 401 "Not authorized to delete this project", db) ∧
    (addCollaboratorErrors isEmail cbody = [] →
      addCollaborator castId isEmail findUserByEmail db requester id cbody now
        = (.message 401 "Not authorized to add collaborators", db)) ∧
    (addCollaboratorErrors isEmail cbody ≠ [] →
      addCollaborator castId isEmail findUserByEmail db requester id cbody now
        = (.validationErrors (addCollaboratorErrors isEmail cbody), db)) ∧
    (addCollaborator castId isEmail findUserByEmail db requester id cbody now).2 = db := by
  have hadd : catchById db (addCollaboratorTry castId findUserByEmail db requester id cbody now)
      = (.message 401 "Not authorized to add collaborators", db) := by
    simp [addCollaboratorTry, hfind, howner, toStringOf, hne, catchById]
  refine ⟨?_, ?_, ?_, ?_, ?_⟩
  · simp [updateProject, updateProjectTry, hfind, howner, toStringOf, hne, catchById]
  · simp [deleteProject, deleteProjectTry, hfind, howner, toStringOf, hne, catchById]
  · intro hv
    simp only [addCollaborator, hv, List.isEmpty_nil, Bool.not_true, Bool.false_eq_true,
      if_false, hadd]
  · intro hv
    have : (addCollaboratorErrors isEmail cbody).isEmpty = false := by
      cases h : addCollaboratorErrors isEmail cbody with
      | nil => exact absurd h hv
      | cons a l => rfl
    simp [addCollaborator, this]
  · by_cases hv : (addCollaboratorErrors isEmail cbody).isEmpty = true
    · simp [addCollaborator, hv, hadd]
    · simp [addCollaborator, hv]

/-- Witness for C17: the admin collaborator `u2` of the sample project can
neither update nor delete it. -/
theorem non_owner_cannot_change_witness :
    updateProject Sample.castHex24 [Sample.demoProject] "u2" Sample.projectId
        { name := some "Mine", description := none, baseUrl := none, environment := none,
          isPublic := some false } 99
      = (.message 401 "Not authorized to update this project", [Sample.demoProject]) ∧
    deleteProject Sample.castHex24 [Sample.demoProject] "u2" Sample.projectId
      = (.message 401 "Not authorized to delete this project", [Sample.demoProject]) :=
  ⟨(non_owner_cannot_change Sample.castHex24 (fun _ => true) (fun _ => none) [Sample.demoProject] "u2"
      Sample.projectId "u1" Sample.demoProject
      { name := some "Mine", description := none, baseUrl := none, environment := none,
        isPublic := some false }
      { email := none, role := none } 99 rfl rfl (by decide)).1,
    (non_owner_cannot_change Sample.castHex24 (fun _ => true) (fun _ => none) [Sample.demoProject] "u2"
      Sample.projectId "u1" Sample.demoProject
      { name := none, description := none, baseUrl := none, environment := none,
        isPublic := none }
      { email := none, role := none } 99 rfl rfl (by decide)).2.1⟩

/-- C17 as stated fails: a requester who is not the owner and posts a
collaborator with the role `owner` is answered 400, not 401. -/
theorem addCollaborator_non_owner_400 :
    findById Sample.castHex24 [Sample.demoProject] Sample.projectId = .ok (some Sample.demoProject) ∧
      Sample.demoProject.user = some "u1" ∧
      (addCollaborator Sample.castHex24 (fun _ => true) (fun _ => none) [Sample.demoProject] "u3"
          Sample.projectId { email := some "new@example.com", role := some "owner" } 99).1
        = .validationErrors ["Role is required"] ∧
      (addCollaborator Sample.castHex24 (fun _ => true) (fun _ => none) [Sample.demoProject] "u3"
          Sample.projectId { email := some "new@example.com", role := some "owner" } 99).1.status
        = 400 := by
  refine ⟨rfl, rfl, by decide, by decide⟩

theorem ownsOrCollaborates_iff (requester : String) (p : ProjectDoc) :
    ownsOrCollaborates requester p = true ↔
      p.user = some requester ∨ ∃ c ∈ p.collaborators, c.user = some requester := by
  simp [ownsOrCollaborates, List.any_eq_true]

/-- C18. `GET api/projects` returns exactly the stored projects whose owner is
the requester or one of whose collaborator entries names the requester, each
as often as it is stored and ordered by createdAt descending; a public project
of another user that does not list the requester is not returned. -/
theorem listProjects_exact (db : List ProjectDoc) (requester : String) :
    ∃ l, listProjects db requester = .projects l ∧
      l.Perm (db.filter (ownsOrCollaborates requester)) ∧
      (∀ p, p ∈ l ↔ p ∈ db ∧
        (p.user = some requester ∨ ∃ c ∈ p.collaborators, c.user = some requester)) ∧
      l.Sorted (fun a b => b.createdAt ≤ a.createdAt) ∧
      (∀ p, p.isPublic = true → p.user ≠ some requester →
        (∀ c ∈ p.collaborators, c.user ≠ some requester) → p ∉ l) := by
  haveI : IsTotal ProjectDoc (fun a b => b.createdAt ≤ a.createdAt) :=
    ⟨fun a b => le_total b.createdAt a.createdAt⟩
  haveI : IsTrans ProjectDoc (fun a b => b.createdAt ≤ a.createdAt) :=
    ⟨fun a b c hab hbc => le_trans hbc hab⟩
  have hperm := List.perm_insertionSort (fun a b : ProjectDoc => b.createdAt ≤ a.createdAt)
    (db.filter (ownsOrCollaborates requester))
  have hmem : ∀ p, p ∈ (db.filter (ownsOrCollaborates requester)).insertionSort
      (fun a b => b.createdAt ≤ a.createdAt) ↔ p ∈ db ∧
        (p.user = some requester ∨ ∃ c ∈ p.collaborators, c.user = some requester) := by
    intro p
    rw [hperm.mem_iff, List.mem_filter, ownsOrCollaborates_iff]
  refine ⟨_, rfl, hperm, hmem, List.sorted_insertionSort _ _, ?_⟩
  intro p _ hu hc hp
  rcases ((hmem p).1 hp).2 with h | ⟨c, hcm, hcu⟩
  · exact hu h
  · exact hc c hcm hcu

/-- Witness for C18: the public sample project is not listed for the stranger
`u3`. -/
theorem listProjects_exact_witness :
    ∃ l, listProjects [Sample.demoProject] "u3" = .projects l ∧ Sample.demoProject ∉ l := by
  obtain ⟨l, h1, -, -, -, h5⟩ := listProjects_exact [Sample.demoProject] "u3"
  exact ⟨l, h1, h5 Sample.demoProject rfl (by decide) (by decide)⟩

theorem createProjectErrors_nil_iff (body : ProjectBody) :
    createProjectErrors body = [] ↔ truthy body.name = true ∧ truthy body.baseUrl = true := by
  cases hn : truthy body.name <;> cases hb : truthy body.baseUrl <;>
    simp [createProjectErrors, checkNotEmpty, hn, hb]

/-- C19, as the code has it. `POST api/projects` answers 400 with the
validation errors and stores nothing whenever the body's name or baseUrl is
missing or empty ('Name is required' for the name, 'Base URL is required' for
the baseUrl); when both are non-empty the route's validation passes, and a
project is created exactly when the environment is missing, empty or one of
development, testing, production: otherwise saving fails on the schema's enum,
the answer is 500 and nothing is stored. -/
theorem createProject_validation (db : List ProjectDoc) (requester : String)
    (body : ProjectBody) (newId : String) (now : Nat) :
    (truthy body.name = false ∨ truthy body.baseUrl = false →
      createProject db requester body newId now
          = (.validationErrors (createProjectErrors body), db) ∧
        (createProject db requester body newId now).1.status = 400 ∧
        ("Name is required" ∈ createProjectErrors body ↔ truthy body.name = false) ∧
        ("Base URL is required" ∈ createProjectErrors body ↔ truthy body.baseUrl = false)) ∧
    (truthy body.name = true → truthy body.baseUrl = true →
      createProjectErrors body = [] ∧
      (environmentOrDefault body.environment ∈ ["development", "testing", "production"] →
        ∃ p, createProject db requester body newId now = (.project p, db ++ [p])) ∧
      (environmentOrDefault body.environment ∉ ["development", "testing", "production"] →
        createProject db requester body newId now = (.serverError, db))) := by
  constructor
  · intro h
    have hne : createProjectErrors body ≠ [] := by
      rw [Ne, createProjectErrors_nil_iff]
      rcases h with h | h <;> simp [h]
    have hemp : (createProjectErrors body).isEmpty = false := by
      cases hc : createProjectErrors body with
      | nil => exact absurd hc hne
      | cons a l => rfl
    refine ⟨by simp [createProject, hemp], by simp [createProject, hemp, Response.status], ?_, ?_⟩
    · cases hn : truthy body.name <;> cases hb : truthy body.baseUrl <;>
        simp [createProjectErrors, checkNotEmpty, hn, hb]
    · cases hn : truthy body.name <;> cases hb : truthy body.baseUrl <;>
        simp [createProjectErrors, checkNotEmpty, hn, hb]
  · intro hn hb
    have herr := (createProjectErrors_nil_iff body).2 ⟨hn, hb⟩
    have hname : ProjectSchema.projectName.acceptsString body.name = true := by
      cases h : body.name with
      | none => simp [truthy, h] at hn
      | some s => simpa [truthy, h, PathSpec.acceptsString, ProjectSchema.projectName] using hn
    have hurl : ProjectSchema.baseUrl.acceptsString body.baseUrl = true := by
      cases h : body.baseUrl with
      | none => simp [truthy, h] at hb
      | some s => simpa [truthy, h, PathSpec.acceptsString, ProjectSchema.baseUrl] using hb
    have hval : validateProject (newProjectDoc newId (some requester) body.name body.description
        body.baseUrl (some (environmentOrDefault body.environment))
        (some (isPublicOrFalse body.isPublic)) now) =
        ["development", "testing", "production"].contains
          (environmentOrDefault body.environment) := by
      unfold validateProject
      simp only [newProjectDoc, Option.getD_some, hname, hurl, List.all_nil, Bool.true_and,
        Bool.and_true]
      simp [PathSpec.acceptsString, ProjectSchema.environment]
    generalize hP : newProjectDoc newId (some requester) body.name body.description
        body.baseUrl (some (environmentOrDefault body.environment))
        (some (isPublicOrFalse body.isPublic)) now = P at hval
    have hrun : createProject db requester body newId now =
        match saveNew db P with
        | .ok db' => (.project P, db')
        | .error _ => (.serverError, db) := by
      simp only [createProject, herr, List.isEmpty_nil, Bool.not_true, Bool.false_eq_true,
        if_false, hP]
    refine ⟨herr, ?_, ?_⟩
    · intro henv
      have hc : ["development", "testing", "production"].contains
          (environmentOrDefault body.environment) = true := by simpa using henv
      have hsave : saveNew db P = .ok (db ++ [P]) := by
        simp only [saveNew, hval, hc, if_true]
      exact ⟨P, by rw [hrun, hsave]⟩
    · intro henv
      have hc : ["development", "testing", "production"].contains
          (environmentOrDefault body.environment) = false := by
        rw [← Bool.not_eq_true]
        simpa using henv
      have hsave : saveNew db P = .error .validation := by
        simp only [saveNew, hval, hc, Bool.false_eq_true, if_false]
      rw [hrun, hsave]

/-- Witness for C19: a body without baseUrl is answered 400 and nothing is
stored. -/
theorem createProject_validation_witness :
    createProject [] "u1"
        { name := some "Demo", description := none, baseUrl := none, environment := none,
          isPublic := none } Sample.projectId 5
      = (.validationErrors ["Base URL is required"], []) :=
  ((createProject_validation [] "u1"
      { name := some "Demo", description := none, baseUrl := none, environment := none,
        isPublic := none } Sample.projectId 5).1 (Or.inr rfl)).1

/-- C19 as stated fails: with a non-empty name and baseUrl and the environment
`staging` the route's validation passes, yet no project is created and the
answer is 500. -/
theorem createProject_bad_environment :
    createProjectErrors
        { name := some "Demo", description := none, baseUrl := some "http://localhost:3000",
          environment := some "staging", isPublic := none } = [] ∧
      createProject [] "u1"
        { name := some "Demo", description := none, baseUrl := some "http://localhost:3000",
          environment := some "staging", isPublic := none } Sample.projectId 5
      = (.serverError, []) := by
  constructor <;> decide

theorem createProject_created (db : List ProjectDoc) (requester : String) (body : ProjectBody)
    (newId : String) (now : Nat) (p : ProjectDoc) (db' : List ProjectDoc)
    (h : createProject db requester body newId now = (.project p, db')) :
    p = newProjectDoc newId (some requester) body.name body.description body.baseUrl
        (some (environmentOrDefault body.environment)) (some (isPublicOrFalse body.isPublic)) now ∧
      db' = db ++ [p] := by
  unfold createProject at h
  by_cases he : (!(createProjectErrors body).isEmpty) = true
  · rw [if_pos he] at h
    cases h
  · rw [if_neg he] at h
    simp only [saveNew] at h
    split at h
    · rename_i db'' hs
      split at hs
      · cases hs
        cases h
        exact ⟨rfl, rfl⟩
      · cases hs
    · cases h

/-- C20. The project a valid `POST api/projects` body creates has the requester
as owner, the body's environment (or 'development' when none or an empty one is
given), the body's isPublic (or false when none is given) and no
collaborators, and it is what the route stores; the defaults of the route are
the defaults of the Project schema. -/
theorem createProject_fields (db : List ProjectDoc) (requester : String) (body : ProjectBody)
    (newId : String) (now : Nat) (p : ProjectDoc) (db' : List ProjectDoc)
    (h : createProject db requester body newId now = (.project p, db')) :
    p.user = some requester ∧
    (∀ e, body.environment = some e → e ≠ "" → p.environment = e) ∧
    (body.environment = none ∨ body.environment = some "" → p.environment = "development") ∧
    (∀ b, body.isPublic = some b → p.isPublic = b) ∧
    (body.isPublic = none → p.isPublic = false) ∧
    p.collaborators = [] ∧
    db' = db ++ [p] ∧
    environmentOrDefault none = ProjectSchema.environmentDefault ∧
    isPublicOrFalse none = ProjectSchema.isPublicDefault ∧
    (newProjectDoc newId (some requester) body.name body.description body.baseUrl none none
        now).environment = "development" ∧
    (newProjectDoc newId (some requester) body.name body.description body.baseUrl none none
        now).isPublic = false := by
  obtain ⟨hp, hdb⟩ := createProject_created db requester body newId now p db' h
  refine ⟨by rw [hp]; rfl, ?_, ?_, ?_, ?_, by rw [hp]; rfl, hdb, rfl, rfl, rfl, rfl⟩
  · intro e he hne
    rw [hp]
    simp [newProjectDoc, environmentOrDefault, truthy, he, hne]
  · intro he
    rw [hp]
    rcases he with he | he <;> simp [newProjectDoc, environmentOrDefault, truthy, he]
  · intro b hb
    rw [hp]
    simp [newProjectDoc, isPublicOrFalse, hb]
  · intro hb
    rw [hp]
    simp [newProjectDoc, isPublicOrFalse, hb]

/-- Witness for C20: a body with only name and baseUrl creates a private
development project owned by the requester. -/
theorem createProject_fields_witness :
    (newProjectDoc Sample.projectId (some "u1") (some "Demo") none
        (some "http://localhost:3000") (some "development") (some false) 5).user = some "u1" ∧
      (newProjectDoc Sample.projectId (some "u1") (some "Demo") none
        (some "http://localhost:3000") (some "development") (some false) 5).collaborators
        = [] :=
  ⟨(createProject_fields [] "u1"
      { name := some "Demo", description := none, baseUrl := some "http://localhost:3000",
        environment := none, isPublic := none } Sample.projectId 5
      (newProjectDoc Sample.projectId (some "u1") (some "Demo") none
        (some "http://localhost:3000") (some "development") (some false) 5)
      [newProjectDoc Sample.projectId (some "u1") (some "Demo") none
        (some "http://localhost:3000") (some "development") (some false) 5]
      (by decide)).1,
    (createProject_fields [] "u1"
      { name := some "Demo", description := none, baseUrl := some "http://localhost:3000",
        environment := none, isPublic := none } Sample.projectId 5
      (newProjectDoc Sample.projectId (some "u1") (some "Demo") none
        (some "http://localhost:3000") (some "development") (some false) 5)
      [newProjectDoc Sample.projectId (some "u1") (some "Demo") none
        (some "http://localhost:3000") (some "development") (some false) 5]
      (by decide)).2.2.2.2.2.1⟩

/-! ## C21 - C24: collaborators, missing projects, updates -/

theorem someCollaborator_false (id : String) (cs : List Collaborator)
    (h : someCollaborator id cs = .ok false) :
    ∀ c ∈ cs, c.user ≠ none ∧ c.user ≠ some id := by
  induction cs with
  | nil => simp
  | cons c rest ih =>
      cases hu : c.user with
      | none => simp [someCollaborator, toStringOf, hu] at h
      | some u =>
          by_cases hid : u = id
          · simp [someCollaborator, toStringOf, hu, hid] at h
          · simp only [someCollaborator, toStringOf, hu, hid, if_false] at h
            intro x hx
            rcases List.mem_cons.1 hx with rfl | hx
            · rw [hu]
              exact ⟨by simp, by simpa using hid⟩
            · exact ih h x hx

theorem someCollaborator_true (id : String) (cs : List Collaborator)
    (hnamed : ∀ c ∈ cs, c.user ≠ none) (hin : ∃ c ∈ cs, c.user = some id) :
    someCollaborator id cs = .ok true := by
  rw [someCollaborator_named id cs hnamed]
  have : (cs.any fun c => c.user == some id) = true := by
    rw [List.any_eq_true]
    obtain ⟨c, hc, hu⟩ := hin
    exact ⟨c, hc, by simp [hu]⟩
  rw [this]

theorem findById_mem (castId : String → Option String)
    (db : List ProjectDoc) (id : String) (p : ProjectDoc)
    (h : findById castId db id = .ok (some p)) : p ∈ db := by
  unfold findById at h
  split at h
  · cases h
  · simp only [Except.ok.injEq] at h
    exact List.mem_of_find?_eq_some h

theorem addCollaboratorTry_store (castId : String → Option String)
    (findUserByEmail : String → Option String)
    (db : List ProjectDoc) (requester id : String) (body : CollaboratorBody) (now : Nat)
    (r : Response) (db' : List ProjectDoc)
    (h : addCollaboratorTry castId findUserByEmail db requester id body now = .ok (r, db')) :
    db' = db ∨ ∃ p userId, p ∈ db ∧ someCollaborator userId p.collaborators = .ok false ∧
      db' = db.map (fun q => if q.id = p.id then
        { p with collaborators := p.collaborators ++
                   [{ user := some userId, role := body.role.getD "" }]
                 updatedAt := now } else q) := by
  unfold addCollaboratorTry at h
  cases hf : findById castId db id with
  | error e => simp [hf] at h
  | ok found =>
      cases found with
      | none =>
          simp only [hf, Except.ok.injEq, Prod.mk.injEq] at h
          exact Or.inl h.2.symm
      | some p =>
          simp only [hf] at h
          cases ho : toStringOf p.user with
          | error e => simp [ho] at h
          | ok owner =>
              simp only [ho] at h
              by_cases hne : owner ≠ requester
              · rw [if_pos hne] at h
                simp only [Except.ok.injEq, Prod.mk.injEq] at h
                exact Or.inl h.2.symm
              · rw [if_neg hne] at h
                cases hu : findUserByEmail (body.email.getD "") with
                | none =>
                    simp only [hu, Except.ok.injEq, Prod.mk.injEq] at h
                    exact Or.inl h.2.symm
                | some userId =>
                    simp only [hu] at h
                    cases hs : someCollaborator userId p.collaborators with
                    | error e => simp [hs] at h
                    | ok b =>
                        cases b with
                        | true =>
                            simp only [hs, Except.ok.injEq, Prod.mk.injEq] at h
                            exact Or.inl h.2.symm
                        | false =>
                            simp only [hs, saveExisting] at h
                            split at h
                            · cases h
                            · rename_i db'' hsave
                              split at hsave
                              · simp only [Except.ok.injEq, Prod.mk.injEq] at h hsave
                                refine Or.inr ⟨p, userId, findById_mem castId db id p hf, hs, ?_⟩
                                rw [← h.2, ← hsave]
                              · cases hsave

theorem addCollaborator_store (castId : String → Option String)
    (isEmail : String → Bool)
    (findUserByEmail : String → Option String) (db : List ProjectDoc)
    (requester id : String) (body : CollaboratorBody) (now : Nat) :
    (addCollaborator castId isEmail findUserByEmail db requester id body now).2 = db ∨
      ∃ p userId, p ∈ db ∧ someCollaborator userId p.collaborators = .ok false ∧
        (addCollaborator castId isEmail findUserByEmail db requester id body now).2 =
          db.map (fun q => if q.id = p.id then
            { p with collaborators := p.collaborators ++
                       [{ user := some userId, role := body.role.getD "" }]
                     updatedAt := now } else q) := by
  unfold addCollaborator
  by_cases hv : (!(addCollaboratorErrors isEmail body).isEmpty) = true
  · rw [if_pos hv]
    exact Or.inl rfl
  · rw [if_neg hv]
    cases ht : addCollaboratorTry castId findUserByEmail db requester id body now with
    | error e => cases e <;> exact Or.inl rfl
    | ok out =>
        obtain ⟨r, db'⟩ := out
        rcases addCollaboratorTry_store castId findUserByEmail db requester id body now r db' ht with
          h | ⟨p, userId, hp, hs, h⟩
        · exact Or.inl h
        · exact Or.inr ⟨p, userId, hp, hs, h⟩

/-- C21. A user is never listed twice as collaborator: when the collaborator
entries of every stored project name pairwise distinct users before
`POST api/projects/:id/collaborators`, they do after it, whatever the request
and its answer; entries that each name a user still do afterwards; and the
owner's valid request that names a user who is already a collaborator answers
400 'User is already a collaborator' and leaves the stored projects
unchanged. -/
theorem addCollaborator_keeps_distinct (castId : String → Option String)
    (isEmail : String → Bool)
    (findUserByEmail : String → Option String) (db : List ProjectDoc)
    (requester id : String) (body : CollaboratorBody) (now : Nat) :
    ((∀ q ∈ db, (collaboratorUsers q).Nodup) →
      ∀ q ∈ (addCollaborator castId isEmail findUserByEmail db requester id body now).2,
        (collaboratorUsers q).Nodup) ∧
    ((∀ q ∈ db, ∀ c ∈ q.collaborators, c.user ≠ none) →
      ∀ q ∈ (addCollaborator castId isEmail findUserByEmail db requester id body now).2,
        ∀ c ∈ q.collaborators, c.user ≠ none) ∧
    (∀ p userId, findById castId db id = .ok (some p) → p.user = some requester →
      addCollaboratorErrors isEmail body = [] →
      findUserByEmail (body.email.getD "") = some userId →
      (∀ c ∈ p.collaborators, c.user ≠ none) → some userId ∈ collaboratorUsers p →
      addCollaborator castId isEmail findUserByEmail db requester id body now
        = (.message 400 "User is already a collaborator", db)) := by
  refine ⟨?_, ?_, ?_⟩
  · intro h q hq
    rcases addCollaborator_store castId isEmail findUserByEmail db requester id body now with
      hs | ⟨p, userId, hp, hfalse, hs⟩
    · rw [hs] at hq
      exact h q hq
    · rw [hs, List.mem_map] at hq
      obtain ⟨q0, hq0, rfl⟩ := hq
      by_cases hid : q0.id = p.id
      · rw [if_pos hid]
        have hnd := h p hp
        have hnot : some userId ∉ collaboratorUsers p := by
          intro hmem
          simp only [collaboratorUsers, List.mem_map] at hmem
          obtain ⟨c, hc, hcu⟩ := hmem
          exact (someCollaborator_false userId p.collaborators hfalse c hc).2 hcu
        simp only [collaboratorUsers, List.map_append, List.map_cons, List.map_nil] at hnd hnot ⊢
        rw [List.nodup_append]
        refine ⟨hnd, List.nodup_singleton _, ?_⟩
        intro x hx hx'
        rw [List.mem_singleton] at hx'
        subst hx'
        exact hnot hx
      · rw [if_neg hid]
        exact h q0 hq0
  · intro h q hq
    rcases addCollaborator_store castId isEmail findUserByEmail db requester id body now with
      hs | ⟨p, userId, hp, hfalse, hs⟩
    · rw [hs] at hq
      exact h q hq
    · rw [hs, List.mem_map] at hq
      obtain ⟨q0, hq0, rfl⟩ := hq
      by_cases hid : q0.id = p.id
      · rw [if_pos hid]
        intro c hc
        simp only [List.mem_append, List.mem_singleton] at hc
        rcases hc with hc | rfl
        · exact h p hp c hc
        · simp
      · rw [if_neg hid]
        exact h q0 hq0
  · intro p userId hfind howner hv huser hnamed hin
    have hin' : ∃ c ∈ p.collaborators, c.user = some userId := by
      simp only [collaboratorUsers, List.mem_map] at hin
      exact hin
    have htrue := someCollaborator_true userId p.collaborators hnamed hin'
    simp [addCollaborator, hv, addCollaboratorTry, hfind, howner, toStringOf, huser, htrue,
      catchById]

/-- Witness for C21: the owner `u1` of the sample project names its
collaborator `u2` again; the answer is 400 and nothing changes. -/
theorem addCollaborator_keeps_distinct_witness :
    addCollaborator Sample.castHex24 (fun _ => true) (fun _ => some "u2") [Sample.demoProject] "u1"
        Sample.projectId { email := some "two@example.com", role := some "viewer" } 99
      = (.message 400 "User is already a collaborator", [Sample.demoProject]) :=
  (addCollaborator_keeps_distinct Sample.castHex24 (fun _ => true) (fun _ => some "u2") [Sample.demoProject] "u1"
      Sample.projectId { email := some "two@example.com", role := some "viewer" } 99).2.2
    Sample.demoProject "u2" rfl rfl (by decide) rfl (by decide) (by decide)

theorem roleCheck_iff (role : Option String) :
    (["viewer", "editor", "admin"].contains (role.getD "")) = true ↔
      ∃ r ∈ addCollaboratorRoles, role = some r := by
  cases role with
  | none => simp [addCollaboratorRoles]
  | some s => simp [addCollaboratorRoles]

theorem addCollaboratorErrors_nil_iff (isEmail : String → Bool) (body : CollaboratorBody) :
    addCollaboratorErrors isEmail body = [] ↔
      isEmail (body.email.getD "") = true ∧ ∃ r ∈ addCollaboratorRoles, body.role = some r := by
  rw [← roleCheck_iff]
  cases he : isEmail (body.email.getD "") <;>
    cases hr : ["viewer", "editor", "admin"].contains (body.role.getD "") <;>
    simp only [addCollaboratorErrors, he, hr] <;> simp

/-- C22. `POST api/projects/:id/collaborators` accepts a request only if its
role is one of viewer, editor, admin and its email passes the email test; a
request with any other role, a missing one included, is answered 400 with
'Role is required' whatever the stored projects, the users, the requester and
the id are, that is, before anything is looked up; and the roles the route
lets through are the role enum of the Project schema. -/
theorem addCollaborator_validation (castId : String → Option String)
    (isEmail : String → Bool)
    (findUserByEmail : String → Option String) (db : List ProjectDoc)
    (requester id : String) (body : CollaboratorBody) (now : Nat) :
    (∀ p db', addCollaborator castId isEmail findUserByEmail db requester id body now = (.project p, db') →
      (∃ r ∈ addCollaboratorRoles, body.role = some r) ∧ isEmail (body.email.getD "") = true) ∧
    ((∀ r ∈ addCollaboratorRoles, body.role ≠ some r) →
      addCollaborator castId isEmail findUserByEmail db requester id body now
          = (.validationErrors (addCollaboratorErrors isEmail body), db) ∧
        (addCollaborator castId isEmail findUserByEmail db requester id body now).1.status = 400 ∧
        "Role is required" ∈ addCollaboratorErrors isEmail body ∧
        ∀ (find2 : String → Option String) (db2 : List ProjectDoc) (requester2 id2 : String),
          (addCollaborator castId isEmail find2 db2 requester2 id2 body now).1
            = .validationErrors (addCollaboratorErrors isEmail body)) ∧
    ProjectSchema.collaboratorRole.enumValues = some addCollaboratorRoles ∧
    addCollaboratorRoles = ["viewer", "editor", "admin"] := by
  refine ⟨?_, ?_, rfl, rfl⟩
  · intro p db' h
    by_cases hv : addCollaboratorErrors isEmail body = []
    · obtain ⟨he, hr⟩ := (addCollaboratorErrors_nil_iff isEmail body).1 hv
      exact ⟨hr, he⟩
    · have hemp : (addCollaboratorErrors isEmail body).isEmpty = false := by
        cases hc : addCollaboratorErrors isEmail body with
        | nil => exact absurd hc hv
        | cons a l => rfl
      simp [addCollaborator, hemp] at h
  · intro hrole
    have hc : (["viewer", "editor", "admin"].contains (body.role.getD "")) = false := by
      rw [← Bool.not_eq_true, roleCheck_iff]
      rintro ⟨r, hr, hb⟩
      exact hrole r hr hb
    have hmem : "Role is required" ∈ addCollaboratorErrors isEmail body := by
      simp only [addCollaboratorErrors, hc]
      simp
    have hemp : (addCollaboratorErrors isEmail body).isEmpty = false := by
      cases hl : addCollaboratorErrors isEmail body with
      | nil => rw [hl] at hmem; cases hmem
      | cons a l => rfl
    refine ⟨by simp [addCollaborator, hemp], by simp [addCollaborator, hemp, Response.status],
      hmem, ?_⟩
    intro find2 db2 requester2 id2
    simp [addCollaborator, hemp]

/-- Witness for C22: a request without role is answered 400 although the
project exists and the requester owns it. -/
theorem addCollaborator_validation_witness :
    addCollaborator Sample.castHex24 (fun _ => true) (fun _ => some "u3") [Sample.demoProject] "u1"
        Sample.projectId { email := some "three@example.com", role := none } 99
      = (.validationErrors ["Role is required"], [Sample.demoProject]) :=
  ((addCollaborator_validation Sample.castHex24 (fun _ => true) (fun _ => some "u3") [Sample.demoProject] "u1"
      Sample.projectId { email := some "three@example.com", role := none } 99).2.1
    (fun r _ hr => by cases hr)).1

theorem findById_no_match (castId : String → Option String)
    (db : List ProjectDoc) (id : String) (h : ∀ p ∈ db, castId id ≠ some p.id) :
    findById castId db id = .error .castObjectId ∨ findById castId db id = .ok none := by
  unfold findById
  cases hc : castId id with
  | none => exact Or.inl rfl
  | some oid =>
      right
      have : db.find? (fun p => p.id == oid) = none := by
        rw [List.find?_eq_none]
        intro p hp
        have hne := h p hp
        rw [hc] at hne
        intro hq
        rw [beq_iff_eq] at hq
        exact hne (by rw [hq])
      simp only [this]

/-- C23, as the code has it. When the id matches no stored project, that is,
it does not cast to an ObjectId or casts to the `_id` of no stored project,
GET, PUT and DELETE `api/projects/:id` answer 404 'Project not found' for
every requester,
and so does `POST api/projects/:id/collaborators` when its body passes the
route's validation; with a body that does not, it answers 400 with the
validation errors.  The stored projects are unchanged and none of the four
answers is 401. -/
theorem missing_project_404 (castId : String → Option String)
    (isEmail : String → Bool)
    (findUserByEmail : String → Option String) (db : List ProjectDoc)
    (requester id : String) (body : ProjectBody) (cbody : CollaboratorBody) (now : Nat)
    (h : ∀ p ∈ db, castId id ≠ some p.id) :
    getProject castId db requester id = .message 404 "Project not found" ∧
    updateProject castId db requester id body now = (.message 404 "Project not found", db) ∧
    deleteProject castId db requester id = (.message 404 "Project not found", db) ∧
    (addCollaboratorErrors isEmail cbody = [] →
      addCollaborator castId isEmail findUserByEmail db requester id cbody now
        = (.message 404 "Project not found", db)) ∧
    (addCollaboratorErrors isEmail cbody ≠ [] →
      addCollaborator castId isEmail findUserByEmail db requester id cbody now
        = (.validationErrors (addCollaboratorErrors isEmail cbody), db)) ∧
    (addCollaborator castId isEmail findUserByEmail db requester id cbody now).1.status ≠ 401 := by
  have hadd : catchById db (addCollaboratorTry castId findUserByEmail db requester id cbody now)
      = (.message 404 "Project not found", db) := by
    rcases findById_no_match castId db id h with hf | hf <;>
      simp [addCollaboratorTry, hf, catchById]
  refine ⟨?_, ?_, ?_, ?_, ?_, ?_⟩
  · rcases findById_no_match castId db id h with hf | hf <;> simp [getProject, getProjectTry, hf]
  · rcases findById_no_match castId db id h with hf | hf <;>
      simp [updateProject, updateProjectTry, hf, catchById]
  · rcases findById_no_match castId db id h with hf | hf <;>
      simp [deleteProject, deleteProjectTry, hf, catchById]
  · intro hv
    simp only [addCollaborator, hv, List.isEmpty_nil, Bool.not_true, Bool.false_eq_true,
      if_false, hadd]
  · intro hv
    have : (addCollaboratorErrors isEmail cbody).isEmpty = false := by
      cases hc : addCollaboratorErrors isEmail cbody with
      | nil => exact absurd hc hv
      | cons a l => rfl
    simp [addCollaborator, this]
  · by_cases hv : (addCollaboratorErrors isEmail cbody).isEmpty = true
    · simp [addCollaborator, hv, hadd, Response.status]
    · simp [addCollaborator, hv, Response.status]

/-- Witness for C23: with the sample project stored, reading another
well-formed id and deleting an id that is no ObjectId both answer 404 and keep
the store. -/
theorem missing_project_404_witness :
    getProject Sample.castHex24 [Sample.demoProject] "u1" Sample.otherId
        = .message 404 "Project not found" ∧
      deleteProject Sample.castHex24 [Sample.demoProject] "u1" "not-an-id"
        = (.message 404 "Project not found", [Sample.demoProject]) :=
  ⟨(missing_project_404 Sample.castHex24 (fun _ => true) (fun _ => none) [Sample.demoProject]
      "u1" Sample.otherId
      { name := none, description := none, baseUrl := none, environment := none,
        isPublic := none }
      { email := none, role := none } 0 (by decide)).1,
    (missing_project_404 Sample.castHex24 (fun _ => true) (fun _ => none) [Sample.demoProject]
      "u1" "not-an-id"
      { name := none, description := none, baseUrl := none, environment := none,
        isPublic := none }
      { email := none, role := none } 0 (by decide)).2.2.1⟩

/-- The id is cast before it is compared: the sample project is found under
its id written with upper-case digits. -/
theorem getProject_casts_id :
    getProject Sample.castHex24 [Sample.demoProject] "u1" "64B0000000000000000000A1"
      = .project Sample.demoProject := by
  decide

/-- C23 as stated fails: posting a collaborator without role to an id that
matches no stored project is answered 400, not 404. -/
theorem addCollaborator_missing_project_400 :
    (∀ p ∈ [Sample.demoProject], Sample.castHex24 Sample.otherId ≠ some p.id) ∧
    (addCollaborator Sample.castHex24 (fun _ => true) (fun _ => none) [Sample.demoProject] "u1"
        Sample.otherId { email := some "new@example.com", role := none } 99).1
      = .validationErrors ["Role is required"] ∧
    (addCollaborator Sample.castHex24 (fun _ => true) (fun _ => none) [Sample.demoProject] "u1"
        Sample.otherId { email := some "new@example.com", role := none } 99).1.status = 400 := by
  refine ⟨by decide, by decide, by decide⟩

theorem acceptsString_required_of_truthy (spec : PathSpec) (v : Option String)
    (henum : spec.enumValues = none) (h : truthy v = true) : spec.acceptsString v = true := by
  cases v with
  | none => simp [truthy] at h
  | some s =>
      simp only [truthy] at h
      simp [PathSpec.acceptsString, henum, h]

theorem validateProject_applyUpdate (p : ProjectDoc) (body : ProjectBody) (now : Nat)
    (hp : validateProject p = true) :
    validateProject (applyUpdate p body now) = true ↔
      (applyUpdate p body now).environment ∈ ["development", "testing", "production"] := by
  simp only [validateProject, Bool.and_eq_true] at hp
  obtain ⟨⟨⟨hn, hb⟩, -⟩, hc⟩ := hp
  have hn' : ProjectSchema.projectName.acceptsString (applyUpdate p body now).name = true := by
    by_cases ht : truthy body.name = true
    · simp only [applyUpdate, ht, if_true]
      exact acceptsString_required_of_truthy _ _ rfl ht
    · simp only [applyUpdate, ht, if_false]
      exact hn
  have hb' : ProjectSchema.baseUrl.acceptsString (applyUpdate p body now).baseUrl = true := by
    by_cases ht : truthy body.baseUrl = true
    · simp only [applyUpdate, ht, if_true]
      exact acceptsString_required_of_truthy _ _ rfl ht
    · simp only [applyUpdate, ht, if_false]
      exact hb
  have hc' : (applyUpdate p body now).collaborators.all
      (fun c => ProjectSchema.collaboratorRole.acceptsString (some c.role)) = true := hc
  simp only [validateProject, hn', hb', hc', Bool.true_and, Bool.and_true]
  simp [PathSpec.acceptsString, ProjectSchema.environment]

/-- C24, as the code has it. For a `PUT api/projects/:id` by the owner, the
updated document has the body's name, baseUrl and environment where the body's
value is non-empty and the stored value otherwise, the body's description and
isPublic whenever the body gives one (the empty description and false
included), and the stored owner, collaborators and createdAt.  The route
stores and returns it when it passes the schema, which for a valid stored
project is exactly when its environment is one of development, testing,
production; otherwise the answer is 500 and nothing changes.  A non-empty name
or baseUrl never becomes empty. -/
theorem updateProject_by_owner (castId : String → Option String)
    (db : List ProjectDoc) (requester id : String)
    (body : ProjectBody) (now : Nat) (p : ProjectDoc)
    (hfind : findById castId db id = .ok (some p)) (howner : p.user = some requester) :
    ((truthy body.name = true → (applyUpdate p body now).name = body.name) ∧
      (truthy body.name = false → (applyUpdate p body now).name = p.name)) ∧
    ((truthy body.baseUrl = true → (applyUpdate p body now).baseUrl = body.baseUrl) ∧
      (truthy body.baseUrl = false → (applyUpdate p body now).baseUrl = p.baseUrl)) ∧
    ((∀ e, body.environment = some e → e ≠ "" → (applyUpdate p body now).environment = e) ∧
      (truthy body.environment = false →
        (applyUpdate p body now).environment = p.environment)) ∧
    ((∀ d, body.description = some d → (applyUpdate p body now).description = some d) ∧
      (body.description = none → (applyUpdate p body now).description = p.description)) ∧
    ((∀ b, body.isPublic = some b → (applyUpdate p body now).isPublic = b) ∧
      (body.isPublic = none → (applyUpdate p body now).isPublic = p.isPublic)) ∧
    ((applyUpdate p body now).user = p.user ∧
      (applyUpdate p body now).collaborators = p.collaborators ∧
      (applyUpdate p body now).createdAt = p.createdAt) ∧
    (validateProject (applyUpdate p body now) = true →
      updateProject castId db requester id body now =
        (.project (applyUpdate p body now),
          db.map (fun q => if q.id = p.id then applyUpdate p body now else q))) ∧
    (validateProject (applyUpdate p body now) = false →
      updateProject castId db requester id body now = (.serverError, db)) ∧
    (validateProject p = true →
      (validateProject (applyUpdate p body now) = true ↔
        (applyUpdate p body now).environment ∈ ["development", "testing", "production"])) ∧
    (truthy p.name = true → truthy (applyUpdate p body now).name = true) ∧
    (truthy p.baseUrl = true → truthy (applyUpdate p body now).baseUrl = true) := by
  have hrun : updateProject castId db requester id body now =
      catchById db (match saveExisting db (applyUpdate p body now) with
        | .error e => .error e
        | .ok db' => .ok (.project (applyUpdate p body now), db')) := by
    simp [updateProject, updateProjectTry, hfind, howner, toStringOf]
  refine ⟨⟨?_, ?_⟩, ⟨?_, ?_⟩, ⟨?_, ?_⟩, ⟨?_, ?_⟩, ⟨?_, ?_⟩, ⟨rfl, rfl, rfl⟩, ?_, ?_,
    validateProject_applyUpdate p body now, ?_, ?_⟩
  · intro h
    simp [applyUpdate, h]
  · intro h
    simp [applyUpdate, h]
  · intro h
    simp [applyUpdate, h]
  · intro h
    simp [applyUpdate, h]
  · intro e he hne
    simp [applyUpdate, truthy, he, hne]
  · intro h
    simp [applyUpdate, h]
  · intro d hd
    simp [applyUpdate, hd]
  · intro hd
    simp [applyUpdate, hd]
  · intro b hb
    simp [applyUpdate, hb]
  · intro hb
    simp [applyUpdate, hb]
  · intro hv
    rw [hrun]
    simp only [saveExisting, hv, if_true, catchById]
    rfl
  · intro hv
    rw [hrun]
    simp only [saveExisting, hv, Bool.false_eq_true, if_false, catchById]
  · intro h
    by_cases ht : truthy body.name = true
    · simp [applyUpdate, ht]
    · simpa [applyUpdate, ht] using h
  · intro h
    by_cases ht : truthy body.baseUrl = true
    · simp [applyUpdate, ht]
    · simpa [applyUpdate, ht] using h

/-- Witness for C24: the owner empties the description and withdraws the
sample project from the public; an empty name in the body keeps the name. -/
theorem updateProject_by_owner_witness :
    (applyUpdate Sample.demoProject
        { name := some "", description := some "", baseUrl := none, environment := none,
          isPublic := some false } 99).description = some "" ∧
      (applyUpdate Sample.demoProject
        { name := some "", description := some "", baseUrl := none, environment := none,
          isPublic := some false } 99).name = Sample.demoProject.name :=
  ⟨((updateProject_by_owner Sample.castHex24 [Sample.demoProject] "u1" Sample.projectId
        { name := some "", description := some "", baseUrl := none, environment := none,
          isPublic := some false } 99 Sample.demoProject rfl rfl).2.2.2.1).1 "" rfl,
    ((updateProject_by_owner Sample.castHex24 [Sample.demoProject] "u1" Sample.projectId
        { name := some "", description := some "", baseUrl := none, environment := none,
          isPublic := some false } 99 Sample.demoProject rfl rfl).1).2 rfl⟩

/-- C24 as stated fails: the owner's PUT with the environment `staging` is
answered 500 and the stored environment stays `development`. -/
theorem updateProject_bad_environment :
    findById Sample.castHex24 [Sample.demoProject] Sample.projectId = .ok (some Sample.demoProject) ∧
      Sample.demoProject.user = some "u1" ∧
      updateProject Sample.castHex24 [Sample.demoProject] "u1" Sample.projectId
        { name := none, description := none, baseUrl := none, environment := some "staging",
          isPublic := none } 99
      = (.serverError, [Sample.demoProject]) := by
  refine ⟨rfl, rfl, by decide⟩

end ApiForge
